import Mathlib

/-!
# WINX TRADE user management: sync reconciler and client data view

A shallow embedding of `src/server.js` (the routes `POST /api/saveUsers` and
`POST /api/fetch-external-data` with the helpers `userExists`, `updateUser` and
`insertUser`) and of the filtering state of `src/public/script.js`.

Conventions of the embedding:

* a JavaScript value is a `JsVal`; numbers are integers (the identifiers of the
  `users` table are `INT` columns);
* an evaluation that throws is `none` in `Option`;
* the MySQL table is a list of rows together with a fault script telling which of
  the coming statements the server rejects.
-/

set_option autoImplicit false

namespace Winx

/-! ## JavaScript values -/

/-- JavaScript values: what `JSON.parse` produces, and `undefined`, the result of
reading a property that an object does not have.  An `obj` lists the own
properties of an object in enumeration order, each key once. -/
inductive JsVal where
  | undefined
  | null
  | bool (b : Bool)
  | num (n : Int)
  | str (s : String)
  | arr (xs : List JsVal)
  | obj (kvs : List (String × JsVal))

namespace JsVal

mutual
/-- Decision procedure for equality of values. -/
def decEq : (a b : JsVal) → Decidable (a = b)
  | undefined, undefined => isTrue rfl
  | null, null => isTrue rfl
  | bool a, bool b =>
    if h : a = b then isTrue (by rw [h]) else isFalse (by intro e; cases e; exact h rfl)
  | num a, num b =>
    if h : a = b then isTrue (by rw [h]) else isFalse (by intro e; cases e; exact h rfl)
  | str a, str b =>
    if h : a = b then isTrue (by rw [h]) else isFalse (by intro e; cases e; exact h rfl)
  | arr a, arr b =>
    match decEqList a b with
    | isTrue h => isTrue (by rw [h])
    | isFalse h => isFalse (by intro e; cases e; exact h rfl)
  | obj a, obj b =>
    match decEqProps a b with
    | isTrue h => isTrue (by rw [h])
    | isFalse h => isFalse (by intro e; cases e; exact h rfl)
  | undefined, null => isFalse (by intro e; cases e)
  | undefined, bool _ => isFalse (by intro e; cases e)
  | undefined, num _ => isFalse (by intro e; cases e)
  | undefined, str _ => isFalse (by intro e; cases e)
  | undefined, arr _ => isFalse (by intro e; cases e)
  | undefined, obj _ => isFalse (by intro e; cases e)
  | null, undefined => isFalse (by intro e; cases e)
  | null, bool _ => isFalse (by intro e; cases e)
  | null, num _ => isFalse (by intro e; cases e)
  | null, str _ => isFalse (by intro e; cases e)
  | null, arr _ => isFalse (by intro e; cases e)
  | null, obj _ => isFalse (by intro e; cases e)
  | bool _, undefined => isFalse (by intro e; cases e)
  | bool _, null => isFalse (by intro e; cases e)
  | bool _, num _ => isFalse (by intro e; cases e)
  | bool _, str _ => isFalse (by intro e; cases e)
  | bool _, arr _ => isFalse (by intro e; cases e)
  | bool _, obj _ => isFalse (by intro e; cases e)
  | num _, undefined => isFalse (by intro e; cases e)
  | num _, null => isFalse (by intro e; cases e)
  | num _, bool _ => isFalse (by intro e; cases e)
  | num _, str _ => isFalse (by intro e; cases e)
  | num _, arr _ => isFalse (by intro e; cases e)
  | num _, obj _ => isFalse (by intro e; cases e)
  | str _, undefined => isFalse (by intro e; cases e)
  | str _, null => isFalse (by intro e; cases e)
  | str _, bool _ => isFalse (by intro e; cases e)
  | str _, num _ => isFalse (by intro e; cases e)
  | str _, arr _ => isFalse (by intro e; cases e)
  | str _, obj _ => isFalse (by intro e; cases e)
  | arr _, undefined => isFalse (by intro e; cases e)
  | arr _, null => isFalse (by intro e; cases e)
  | arr _, bool _ => isFalse (by intro e; cases e)
  | arr _, num _ => isFalse (by intro e; cases e)
  | arr _, str _ => isFalse (by intro e; cases e)
  | arr _, obj _ => isFalse (by intro e; cases e)
  | obj _, undefined => isFalse (by intro e; cases e)
  | obj _, null => isFalse (by intro e; cases e)
  | obj _, bool _ => isFalse (by intro e; cases e)
  | obj _, num _ => isFalse (by intro e; cases e)
  | obj _, str _ => isFalse (by intro e; cases e)
  | obj _, arr _ => isFalse (by intro e; cases e)
/-- Decision procedure for equality of lists of values. -/
def decEqList : (a b : List JsVal) → Decidable (a = b)
  | [], [] => isTrue rfl
  | [], _ :: _ => isFalse (by intro e; cases e)
  | _ :: _, [] => isFalse (by intro e; cases e)
  | x :: xs, y :: ys =>
    match decEq x y, decEqList xs ys with
    | isTrue h, isTrue h2 => isTrue (by rw [h, h2])
    | isFalse h, _ => isFalse (by intro e; cases e; exact h rfl)
    | _, isFalse h => isFalse (by intro e; cases e; exact h rfl)
/-- Decision procedure for equality of property lists. -/
def decEqProps : (a b : List (String × JsVal)) → Decidable (a = b)
  | [], [] => isTrue rfl
  | [], _ :: _ => isFalse (by intro e; cases e)
  | _ :: _, [] => isFalse (by intro e; cases e)
  | (k, x) :: xs, (l, y) :: ys =>
    if hk : k = l then
      match decEq x y, decEqProps xs ys with
      | isTrue h, isTrue h2 => isTrue (by rw [hk, h, h2])
      | isFalse h, _ => isFalse (by intro e; cases e; exact h rfl)
      | _, isFalse h => isFalse (by intro e; cases e; exact h rfl)
    else isFalse (by intro e; cases e; exact hk rfl)
end

instance : DecidableEq JsVal := decEq

instance : Inhabited JsVal := ⟨undefined⟩

/-- Truthiness, as tested by `if (v)`, `!v`, `v || d` and `v && w`. -/
def truthy : JsVal → Bool
  | undefined => false
  | null => false
  | bool b => b
  | num n => n != 0
  | str s => s != ""
  | arr _ => true
  | obj _ => true

/-- The values on which a property access throws a `TypeError`. -/
def isNullish : JsVal → Bool
  | undefined => true
  | null => true
  | _ => false

/-- The expression `a || d`. -/
def orElse (a d : JsVal) : JsVal := if a.truthy then a else d

/-- The test `Array.isArray(v)`. -/
def isArray : JsVal → Bool
  | arr _ => true
  | _ => false

/-- The elements iterated by `for (const x of v)` when `v` is an array. -/
def elems : JsVal → List JsVal
  | arr xs => xs
  | _ => []

/-- Value of the own property `key` in a property list, `undefined` when there is none. -/
def lookup : List (String × JsVal) → String → JsVal
  | [], _ => undefined
  | (k, v) :: rest, key => if k = key then v else lookup rest key

/-- The member access `v.key` for the data properties read by the program
(`userID`, `firstName`, `data`, ...): it throws on `null` and `undefined`, reads the
own property of an object, and is `undefined` on every other value. -/
def prop : JsVal → String → Option JsVal
  | undefined, _ => none
  | null, _ => none
  | obj kvs, key => some (lookup kvs key)
  | _, _ => some undefined

/-- The member access on a value known not to throw. -/
def get (v : JsVal) (key : String) : JsVal := (v.prop key).getD undefined

/-- The double quote character. -/
def dquote : Char := Char.ofNat 34

/-- The backslash character. -/
def bslash : Char := Char.ofNat 92

/-- Lower-case hexadecimal digit. -/
def hexDigit (n : Nat) : Char :=
  if n < 10 then Char.ofNat (48 + n) else Char.ofNat (87 + n)

/-- Escape of one character inside a JSON string, as `JSON.stringify` writes it. -/
def escapeChar (c : Char) : List Char :=
  if c = dquote then [bslash, dquote]
  else if c = bslash then [bslash, bslash]
  else if c.toNat = 8 then [bslash, 'b']
  else if c.toNat = 9 then [bslash, 't']
  else if c.toNat = 10 then [bslash, 'n']
  else if c.toNat = 12 then [bslash, 'f']
  else if c.toNat = 13 then [bslash, 'r']
  else if c.toNat < 32 then
    [bslash, 'u', '0', '0', hexDigit (c.toNat / 16), hexDigit (c.toNat % 16)]
  else [c]

/-- The quoted form of a string in JSON text. -/
def quoteJson (s : String) : String :=
  String.mk (dquote :: (s.data.flatMap escapeChar ++ [dquote]))

mutual
/-- The JSON text of a value (`undefined` inside an array is written `null`; an
integer is written in decimal, as JavaScript does below `10^21`). -/
def stringifyVal : JsVal → String
  | undefined => "null"
  | null => "null"
  | bool b => if b then "true" else "false"
  | num n => toString n
  | str s => quoteJson s
  | arr xs => "[" ++ ",".intercalate (stringifyElems xs) ++ "]"
  | obj kvs => "\x7b" ++ ",".intercalate (stringifyProps kvs) ++ "\x7d"
/-- The JSON texts of the elements of an array. -/
def stringifyElems : List JsVal → List String
  | [] => []
  | x :: xs => stringifyVal x :: stringifyElems xs
/-- The JSON texts of the properties of an object; a property whose value is
`undefined` is left out. -/
def stringifyProps : List (String × JsVal) → List String
  | [] => []
  | (_, undefined) :: rest => stringifyProps rest
  | (k, v) :: rest => (quoteJson k ++ ":" ++ stringifyVal v) :: stringifyProps rest
end

/-- The call `JSON.stringify(v)`: a string, or `undefined` for `undefined`. -/
def jsonStringify : JsVal → JsVal
  | undefined => undefined
  | v => str (stringifyVal v)

end JsVal

open JsVal

/-! ## The `users` table -/

/-- A row of the table `users`, restricted to the columns that the statements of
`server.js` write: `userID` and the ten columns set by `INSERT` and `UPDATE`.
Each column holds the parameter value the statement supplied (SQL `NULL` is
`JsVal.null`); the conversion MySQL applies to fit a value to the column type is
not part of the model, and neither are `id`, `created_at` and `updated_at`, which
MySQL maintains itself. -/
structure Row where
  userID : JsVal
  firstName : JsVal
  lastName : JsVal
  username : JsVal
  country : JsVal
  openDate : JsVal
  accountID : JsVal
  userType : JsVal
  parentId : JsVal
  emailVerified : JsVal
  full_data : JsVal
deriving DecidableEq

/-- The database as seen through the connection pool: the rows of `users`, and a
fault script.  The head of `faults` says whether the next statement sent to MySQL
is rejected (the query promise rejects); an exhausted script means no more
faults. -/
structure Db where
  rows : List Row
  faults : List Bool
deriving DecidableEq

namespace Db

/-- Whether the statement about to be sent is rejected. -/
def rejectsNext (db : Db) : Bool := db.faults.headD false

/-- The database after one statement has been answered without a change of rows. -/
def next (db : Db) : Db := { db with faults := db.faults.tail }

/-- No statement of the script is rejected. -/
def healthy (db : Db) : Prop := ∀ b ∈ db.faults, b = false

instance (db : Db) : Decidable db.healthy := by unfold healthy; infer_instance

end Db

/-- The SQL comparison `column = ?`: never true when the parameter is `NULL`
(the driver sends `undefined` as `NULL` too). -/
def sqlEq (column param : JsVal) : Bool :=
  !param.isNullish && decide (column = param)

/-- The rows found by `SELECT userID FROM users WHERE userID = ?`, or `none` when the
statement is rejected. -/
def selectByUserID (db : Db) (userID : JsVal) : Option (List Row) × Db :=
  if db.rejectsNext then (none, db.next)
  else (some (db.rows.filter (fun r => sqlEq r.userID userID)), db.next)

/-- The statement `UPDATE users SET firstName = ?, ..., full_data = ? WHERE userID = ?`.
`values` carries the ten new column values and, in `userID`, the parameter of the
`WHERE` clause.  The answer is `affectedRows`, which for the driver's default
connection flags counts the rows matched; `none` when the statement is rejected. -/
def updateByUserID (db : Db) (values : Row) : Option Nat × Db :=
  if db.rejectsNext then (none, db.next)
  else
    (some (db.rows.filter (fun r => sqlEq r.userID values.userID)).length,
     { rows := db.rows.map (fun r =>
         if sqlEq r.userID values.userID then { values with userID := r.userID } else r),
       faults := db.faults.tail })

/-- The statement `INSERT INTO users (userID, firstName, ...) VALUES (?, ...)`.  The
column `userID` is declared `UNIQUE`: a row whose non-NULL `userID` is already in
the table is rejected.  The answer is `affectedRows`. -/
def insertRow (db : Db) (values : Row) : Option Nat × Db :=
  if db.rejectsNext || db.rows.any (fun r => sqlEq r.userID values.userID) then
    (none, db.next)
  else (some 1, { rows := db.rows ++ [values], faults := db.faults.tail })

/-! ## `server.js`: helpers -/

/-- The function `userExists(userID)`: a rejected lookup is caught and answers `false`. -/
def userExists (db : Db) (userID : JsVal) : Bool × Db :=
  match selectByUserID db userID with
  | (some rows, db1) => (decide (rows.length > 0), db1)
  | (none, db1) => (false, db1)

/-- The array `values` built by `updateUser`; `none` when reading a property of
`user` throws. -/
def updateValues (user : JsVal) : Option Row := do
  let firstName ← user.prop "firstName"
  let lastName ← user.prop "lastName"
  let username ← user.prop "username"
  let country ← user.prop "country"
  let openDate ← user.prop "openDate"
  let accountID ← user.prop "accountID"
  let userType ← user.prop "userType"
  let parentId ← user.prop "parentId"
  let emailVerified ← user.prop "emailVerified"
  let userID ← user.prop "userID"
  pure {
    firstName := firstName.orElse (str "")
    lastName := lastName.orElse (str "")
    username := username.orElse (str "")
    country := country.orElse (str "")
    openDate := openDate.orElse null
    accountID := accountID.orElse null
    userType := userType.orElse (num 1)
    parentId := parentId.orElse null
    emailVerified := emailVerified.orElse (bool false)
    full_data := jsonStringify user
    userID := userID }

/-- The function `updateUser(user)`.  A rejected statement is caught and answers `false`.  When
`user` is `null` or `undefined` the property read throws, and so does the log line
of the `catch` block: the call throws (`none`). -/
def updateUser (db : Db) (user : JsVal) : Option (Bool × Db) := do
  let values ← updateValues user
  match updateByUserID db values with
  | (some affectedRows, db1) => pure (decide (affectedRows > 0), db1)
  | (none, db1) => pure (false, db1)

/-- The array `values` built by `insertUser`; `none` when reading a property of
`user` throws. -/
def insertValues (user : JsVal) : Option Row := do
  let userID ← user.prop "userID"
  let firstName ← user.prop "firstName"
  let lastName ← user.prop "lastName"
  let username ← user.prop "username"
  let country ← user.prop "country"
  let openDate ← user.prop "openDate"
  let accountID ← user.prop "accountID"
  let userType ← user.prop "userType"
  let parentId ← user.prop "parentId"
  let emailVerified ← user.prop "emailVerified"
  pure {
    userID := userID.orElse null
    firstName := firstName.orElse (str "")
    lastName := lastName.orElse (str "")
    username := username.orElse (str "")
    country := country.orElse (str "")
    openDate := openDate.orElse null
    accountID := accountID.orElse null
    userType := userType.orElse (num 1)
    parentId := parentId.orElse null
    emailVerified := emailVerified.orElse (bool false)
    full_data := jsonStringify user }

/-- The function `insertUser(user)`, with the same treatment of failures as `updateUser`. -/
def insertUser (db : Db) (user : JsVal) : Option (Bool × Db) := do
  let values ← insertValues user
  match insertRow db values with
  | (some affectedRows, db1) => pure (decide (affectedRows > 0), db1)
  | (none, db1) => pure (false, db1)

/-! ## `server.js`: `POST /api/saveUsers` -/

/-- The three counters of the `saveUsers` loop. -/
structure Counts where
  savedCount : Nat
  updatedCount : Nat
  errorCount : Nat
deriving DecidableEq

namespace Counts

/-- The counters at the start of the loop. -/
def zero : Counts := ⟨0, 0, 0⟩

/-- The increment `savedCount++`. -/
def saved (c : Counts) : Counts := { c with savedCount := c.savedCount + 1 }

/-- The increment `updatedCount++`. -/
def updated (c : Counts) : Counts := { c with updatedCount := c.updatedCount + 1 }

/-- The increment `errorCount++`. -/
def failed (c : Counts) : Counts := { c with errorCount := c.errorCount + 1 }

end Counts

/-- The loop `for (const user of users)` of `POST /api/saveUsers`, started with the
given counters.  The second component is `none` when an exception leaves the loop:
that happens for an element that is `null`, where the log line of the per-record
`catch` block throws again. -/
def saveUsersLoop : List JsVal → Db → Counts → Db × Option Counts
  | [], db, c => (db, some c)
  | user :: rest, db, c =>
    match user.prop "userID" with
    | none => (db, none)
    | some userID =>
      if !userID.truthy then saveUsersLoop rest db c
      else
        match userExists db userID with
        | (true, db1) =>
          match updateUser db1 user with
          | some (true, db2) => saveUsersLoop rest db2 c.updated
          | some (false, db2) => saveUsersLoop rest db2 c.failed
          | none => saveUsersLoop rest db1 c.failed
        | (false, db1) =>
          match insertUser db1 user with
          | some (true, db2) => saveUsersLoop rest db2 c.saved
          | some (false, db2) => saveUsersLoop rest db2 c.failed
          | none => saveUsersLoop rest db1 c.failed

/-- The object `summary` of the response of `POST /api/saveUsers`. -/
structure Summary where
  totalReceived : Nat
  newUsers : Nat
  updatedUsers : Nat
  errors : Nat
deriving DecidableEq

/-- The responses of `POST /api/saveUsers`. -/
inductive SaveResponse where
  /-- Status 400, `Expected { data: [users] } or [users] format`. -/
  | badRequest
  /-- Status 200, `{status: 'success', message: 'No users to save', saved: 0, updated: 0}`. -/
  | noUsers
  /-- Status 200, `{status: 'success', message, summary}`. -/
  | success (summary : Summary)
  /-- Status 500, `Internal server error`. -/
  | serverError
deriving DecidableEq

/-- The handler of `POST /api/saveUsers` applied to the parsed request body. -/
def saveUsers (db : Db) (body : JsVal) : SaveResponse × Db :=
  match body.prop "data" with
  | none => (.serverError, db)
  | some data =>
    let users : Option (List JsVal) :=
      if data.truthy && data.isArray then some data.elems
      else if body.isArray then some body.elems
      else none
    match users with
    | none => (.badRequest, db)
    | some users =>
      if users.length = 0 then (.noUsers, db)
      else
        match saveUsersLoop users db Counts.zero with
        | (db1, some c) =>
          (.success {
              totalReceived := users.length
              newUsers := c.savedCount
              updatedUsers := c.updatedCount
              errors := c.errorCount }, db1)
        | (db1, none) => (.serverError, db1)

/-! ## `server.js`: `POST /api/fetch-external-data` -/

/-- The function `fetchFromExternalAPI` of `server.js`, given the outcome of the
`GET` request to the external endpoint: `none` when `fetch` rejects, the status is
not OK or the body is not JSON, and the parsed body otherwise.  Every exception is
caught inside the function, which then returns `null`. -/
def fetchFromExternalAPI (outcome : Option JsVal) : JsVal :=
  match outcome with
  | some data => data
  | none => null

/-- The loop of `POST /api/fetch-external-data` over the fetched array, with the
counters `savedCount` and `updatedCount`; `none` when an exception leaves it. -/
def fetchLoop : List JsVal → Db → Nat → Nat → Db × Option (Nat × Nat)
  | [], db, savedCount, updatedCount => (db, some (savedCount, updatedCount))
  | user :: rest, db, savedCount, updatedCount =>
    match user.prop "userID" with
    | none => (db, none)
    | some userID =>
      match userExists db userID with
      | (true, db1) =>
        match updateUser db1 user with
        | some (_, db2) => fetchLoop rest db2 savedCount (updatedCount + 1)
        | none => (db1, none)
      | (false, db1) =>
        match insertUser db1 user with
        | some (_, db2) => fetchLoop rest db2 (savedCount + 1) updatedCount
        | none => (db1, none)

/-- The object `summary` of the response of `POST /api/fetch-external-data`. -/
structure FetchSummary where
  newUsers : Nat
  updatedUsers : Nat
  totalProcessed : Nat
deriving DecidableEq

/-- The responses of `POST /api/fetch-external-data`. -/
inductive FetchResponse where
  /-- Status 200, `{status: 'success', message, summary}`. -/
  | success (summary : FetchSummary)
  /-- Status 500. -/
  | serverError
deriving DecidableEq

/-- The handler of `POST /api/fetch-external-data`, given what `fetchFromExternalAPI`
returned (`null` when the external call failed). -/
def fetchExternalData (db : Db) (externalData : JsVal) : FetchResponse × Db :=
  if !externalData.truthy then (.serverError, db)
  else
    let users := if externalData.isArray then externalData.elems else []
    match fetchLoop users db 0 0 with
    | (db1, some (savedCount, updatedCount)) =>
      (.success {
          newUsers := savedCount
          updatedUsers := updatedCount
          totalProcessed := savedCount + updatedCount }, db1)
    | (db1, none) => (.serverError, db1)

/-! ## Vocabulary for the statements about the reconciler -/

/-- The request bodies of `POST /api/saveUsers` that carry the batch `users`: the
array itself, or an object whose property `data` is that array. -/
def carries (body : JsVal) (users : List JsVal) : Prop :=
  body = arr users ∨ ∃ kvs, body = obj kvs ∧ lookup kvs "data" = arr users

/-- The parameter values that `updateUser` sends for a record whose properties can
be read: each typed column is the record's value when that value is truthy and
the default of the `||` expression otherwise, `full_data` is the JSON text of the
whole record, and `userID` is the key of the `WHERE` clause. -/
def storedRow (user : JsVal) : Row where
  userID := user.get "userID"
  firstName := (user.get "firstName").orElse (str "")
  lastName := (user.get "lastName").orElse (str "")
  username := (user.get "username").orElse (str "")
  country := (user.get "country").orElse (str "")
  openDate := (user.get "openDate").orElse null
  accountID := (user.get "accountID").orElse null
  userType := (user.get "userType").orElse (num 1)
  parentId := (user.get "parentId").orElse null
  emailVerified := (user.get "emailVerified").orElse (bool false)
  full_data := jsonStringify user

/-- The constraint `userID INT UNIQUE` of the table: no two rows share a userID
that is not `NULL`. -/
def uniqueIDs (rows : List Row) : Prop :=
  ((rows.map (fun r => r.userID)).filter (fun u => !u.isNullish)).Nodup

/-- The first record of the example of the specification. -/
def john : JsVal :=
  obj [("userID", num 1001), ("firstName", str "John"), ("country", str "USA")]

/-- The second record of the example of the specification. -/
def jonathan : JsVal :=
  obj [("userID", num 1001), ("firstName", str "Jonathan")]

/-- A record without `userID`. -/
def anonymous : JsVal := obj [("firstName", str "Ann")]

/-- A record whose `userType` and `accountID` are present and zero. -/
def zeroTyped : JsVal :=
  obj [("userID", num 7), ("userType", num 0), ("accountID", num 0)]

/-! ## `script.js`: the client data view -/

/-- What the page takes from the browser: the lower-casing of strings and the
`Date` arithmetic in local time.  Times are milliseconds since the epoch. -/
structure Browser where
  /-- The method `String.prototype.toLowerCase`. -/
  toLowerCase : String → String
  /-- The time value of `new Date()`. -/
  now : Int
  /-- The time value of `new Date(v)`, `none` for an invalid date. -/
  dateOf : JsVal → Option Int
  /-- For `d` with time value `t`, the time value of
  `new Date(d.getFullYear(), d.getMonth(), d.getDate())`: local midnight of its day. -/
  startOfDay : Int → Int
  /-- For `d` with time value `t`, the time value of
  `new Date(d.getFullYear(), d.getMonth() - 1, d.getDate())`. -/
  monthBefore : Int → Int

/-- The code points removed by `String.prototype.trim`: white space and line
terminators. -/
def isTrimmed (c : Char) : Bool :=
  c.toNat ∈ [9, 10, 11, 12, 13, 32, 160, 5760, 8232, 8233, 8239, 8287, 12288, 65279]
    || (8192 ≤ c.toNat && c.toNat ≤ 8202)

/-- The method `String.prototype.trim`. -/
def trim (s : String) : String :=
  String.mk ((s.data.dropWhile isTrimmed).reverse.dropWhile isTrimmed).reverse

/-- The test `s.includes(t)`: `t` occurs in `s`. -/
def includes (s t : String) : Bool :=
  s.data.tails.any (fun suffix => t.data.isPrefixOf suffix)

mutual
/-- The text `v.toString()` for the values that have the method. -/
def toStringJs : JsVal → String
  | JsVal.undefined => "undefined"
  | JsVal.null => "null"
  | JsVal.bool b => if b then "true" else "false"
  | JsVal.num n => toString n
  | JsVal.str s => s
  | JsVal.arr xs => ",".intercalate (toStringElems xs)
  | JsVal.obj _ => "[object Object]"
/-- The texts joined by `Array.prototype.toString`: empty for `null` and
`undefined` elements. -/
def toStringElems : List JsVal → List String
  | [] => []
  | JsVal.undefined :: xs => "" :: toStringElems xs
  | JsVal.null :: xs => "" :: toStringElems xs
  | x :: xs => toStringJs x :: toStringElems xs
end

/-- A disjunct `(field && field.toLowerCase().includes(searchTerm))` of the search
filter, by truthiness; it throws when a truthy field is not a string. -/
def matchesLower (env : Browser) (field : JsVal) (searchTerm : String) : Option Bool :=
  if !field.truthy then some false
  else
    match field with
    | JsVal.str s => some (includes (env.toLowerCase s) searchTerm)
    | _ => none

/-- A disjunct `(field && field.toString().includes(searchTerm))` of the search
filter, by truthiness. -/
def matchesText (field : JsVal) (searchTerm : String) : Bool :=
  field.truthy && includes (toStringJs field) searchTerm

/-- The operator `||` between two conditions, the second evaluated only when the
first is falsy. -/
def orThen (a : Option Bool) (b : Option Bool) : Option Bool :=
  match a with
  | none => none
  | some true => some true
  | some false => b

/-- The constant `matchesSearch` of the filter callback. -/
def matchesSearch (env : Browser) (user : JsVal) (searchTerm : String) : Option Bool :=
  if searchTerm = "" then some true
  else
    orThen ((user.prop "firstName").bind fun f => matchesLower env f searchTerm) <|
    orThen ((user.prop "lastName").bind fun f => matchesLower env f searchTerm) <|
    orThen ((user.prop "username").bind fun f => matchesLower env f searchTerm) <|
    orThen ((user.prop "country").bind fun f => matchesLower env f searchTerm) <|
    orThen ((user.prop "userID").map fun f => matchesText f searchTerm) <|
    (user.prop "accountID").map fun f => matchesText f searchTerm

/-- The constant `matchesCountry` of the filter callback. -/
def matchesCountry (user : JsVal) (countryFilter : String) : Option Bool :=
  if countryFilter = "" then some true
  else (user.prop "country").map fun c => decide (c = JsVal.str countryFilter)

/-- The function `filterByDate(user, dateFilter)`.  Comparisons with an invalid date are false. -/
def filterByDate (env : Browser) (user : JsVal) (dateFilter : String) : Option Bool :=
  if dateFilter = "" then some true
  else
    (user.prop "openDate").map fun openDate =>
      if !openDate.truthy then true
      else
        let todayStart := env.startOfDay env.now
        let userDateStart := (env.dateOf openDate).map env.startOfDay
        if dateFilter = "today" then
          decide (userDateStart = some todayStart)
        else if dateFilter = "week" then
          match userDateStart with
          | some t => decide (t ≥ todayStart - 6 * 24 * 60 * 60 * 1000)
          | none => false
        else if dateFilter = "month" then
          match userDateStart with
          | some t => decide (t ≥ env.monthBefore env.now)
          | none => false
        else true

/-- The callback of `allUsers.filter(...)` in `filterUsers`. -/
def keepsUser (env : Browser) (searchTerm countryFilter dateFilter : String)
    (user : JsVal) : Option Bool := do
  let search ← matchesSearch env user searchTerm
  let country ← matchesCountry user countryFilter
  let date ← filterByDate env user dateFilter
  pure (search && country && date)

/-- The call `xs.filter(p)` for a callback that may throw. -/
def filterArray (p : JsVal → Option Bool) : List JsVal → Option (List JsVal)
  | [] => some []
  | x :: xs => do
    let keep ← p x
    let rest ← filterArray p xs
    pure (if keep then x :: rest else rest)

/-- The state of the page: the module variables `allUsers`, `filteredUsers`,
`currentPage` and `currentView`, and the values of the three filter inputs. -/
structure View where
  allUsers : List JsVal
  filteredUsers : List JsVal
  currentPage : Int
  currentView : String
  searchInput : String
  countryFilter : String
  dateFilter : String

/-- The constant `usersPerPage`. -/
def usersPerPage : Nat := 10

/-- The function `filterUsers()`: the state after the call, `none` when the callback throws (the
variables then keep their values).  Rendering only reads the state. -/
def filterUsers (env : Browser) (v : View) : Option View := do
  let searchTerm := trim (env.toLowerCase v.searchInput)
  let kept ← filterArray (keepsUser env searchTerm v.countryFilter v.dateFilter) v.allUsers
  pure { v with filteredUsers := kept, currentPage := 1 }

/-- A browser for evaluating examples: ASCII lower-casing, the clock at a fixed
instant, numeric time values only, and days of the UTC calendar. -/
def sampleBrowser : Browser where
  toLowerCase := fun s => String.mk (s.data.map Char.toLower)
  now := 1700000000000
  dateOf := fun v =>
    match v with
    | JsVal.num n => some n
    | _ => none
  startOfDay := fun t => t - t % 86400000
  monthBefore := fun t => (t - t % 86400000) - 30 * 86400000

/-! ## `script.js`: pagination and rendering -/

/-- The page count `Math.ceil(filteredUsers.length / usersPerPage)`. -/
def totalPages (v : View) : Nat :=
  (v.filteredUsers.length + (usersPerPage - 1)) / usersPerPage

/-- The function `changePage(direction)`: the state after the call. -/
def changePage (direction : Int) (v : View) : View :=
  let pages : Int := totalPages v
  let moved := v.currentPage + direction
  let raised := if moved < 1 then 1 else moved
  { v with currentPage := if raised > pages then pages else raised }

/-- What `updatePagination()` writes: the two `disabled` flags and the text of
`pageInfo`. -/
structure PaginationControls where
  prevDisabled : Bool
  nextDisabled : Bool
  pageInfo : String
deriving DecidableEq

/-- The function `updatePagination()`. -/
def updatePagination (v : View) : PaginationControls where
  prevDisabled := decide (v.currentPage = 1)
  nextDisabled := decide (v.currentPage = totalPages v) || decide (totalPages v = 0)
  pageInfo := "Page " ++ toString v.currentPage ++ " of " ++ toString (totalPages v)

/-- The numbers `start` and `end` of `updateShowingCount()`. -/
def showingBounds (v : View) : Int × Int :=
  let total : Int := v.filteredUsers.length
  (min ((v.currentPage - 1) * usersPerPage + 1) total, min (v.currentPage * usersPerPage) total)

/-- The function `updateShowingCount()`: the text written to `showingCount`. -/
def updateShowingCount (v : View) : String :=
  if v.filteredUsers.length = 0 then "No users found"
  else
    "Showing " ++ toString (showingBounds v).1 ++ "-" ++ toString (showingBounds v).2 ++
      " of " ++ toString v.filteredUsers.length ++ " users"

/-- The call `xs.slice(start, end)`: a negative index counts from the end. -/
def jsSlice (xs : List JsVal) (start stop : Int) : List JsVal :=
  let len : Int := xs.length
  let k := if start < 0 then max (len + start) 0 else min start len
  let final := if stop < 0 then max (len + stop) 0 else min stop len
  (xs.drop k.toNat).take (final - k).toNat

/-- Whether building the table row or the card of `user` throws: `user` is `null`,
or `firstName` is truthy and has no method `charAt` (it is not a string). -/
def cardThrows (user : JsVal) : Bool :=
  user.isNullish ||
    match user.get "firstName" with
    | JsVal.str _ => false
    | firstName => firstName.truthy

/-- The function `renderTableView()`: the records `usersToShow` of the current
page, `none` when building a row throws.  The markup is not modelled. -/
def renderTableView (v : View) : Option (List JsVal) :=
  let startIndex := (v.currentPage - 1) * usersPerPage
  let endIndex := startIndex + usersPerPage
  let usersToShow := jsSlice v.filteredUsers startIndex endIndex
  if usersToShow.any cardThrows then none else some usersToShow

/-- The function `renderGridView()`: the records `usersToShow` of the current
page, `none` when building a card throws.  The markup is not modelled. -/
def renderGridView (v : View) : Option (List JsVal) :=
  let startIndex := (v.currentPage - 1) * usersPerPage
  let endIndex := startIndex + usersPerPage
  let usersToShow := jsSlice v.filteredUsers startIndex endIndex
  if usersToShow.any cardThrows then none else some usersToShow

/-- The function `renderContent()`: the records it renders, `none` when it throws. -/
def renderContent (v : View) : Option (List JsVal) :=
  if v.currentView = "table" then renderTableView v else renderGridView v

/-! ## `script.js`: loading -/

/-- Whether `updateStats()` throws: it reads `openDate` of every record, which
throws on `null`, and calls `startsWith` on a truthy `openDate`, which throws when
that value is not a string.  The figures it displays are not modelled. -/
def updateStatsThrows (allUsers : List JsVal) : Bool :=
  allUsers.any fun user =>
    user.isNullish ||
      match user.get "openDate" with
      | JsVal.str _ => false
      | openDate => openDate.truthy

/-- The function `populateCountryFilter()`: it reads `country` of every record and
rebuilds the options of the country select, which leaves its first option, All
Countries with value `""`, selected.  It is `none` when a record is `null`. -/
def populateCountryFilter (v : View) : Option View :=
  if v.allUsers.any JsVal.isNullish then none else some { v with countryFilter := "" }

/-- The calls `updateStats(); populateCountryFilter(); renderContent();` that end
both loaders: the state when they are over, and whether one of them threw. -/
def refreshPage (v : View) : View × Bool :=
  if updateStatsThrows v.allUsers then (v, true)
  else
    match populateCountryFilter v with
    | none => (v, true)
    | some v1 => (v1, (renderContent v1).isNone)

/-- The random choices of `loadSampleData`: the ISO text of the date and the flag
`emailVerified` drawn for the sample user of each index. -/
structure SampleSource where
  openDate : Nat → String
  emailVerified : Nat → Bool

/-- The sample user of index `i` generated by `loadSampleData`. -/
def sampleUser (src : SampleSource) (i : Nat) : JsVal :=
  obj [
    ("userID", num (1000 + i)),
    ("firstName", str (["John", "Jane", "Mike", "Sarah", "David", "Emma", "Chris",
      "Lisa"].getD (i % 8) "")),
    ("lastName", str (["Smith", "Johnson", "Williams", "Brown", "Jones", "Garcia",
      "Miller", "Davis"].getD (i % 8) "")),
    ("username", str ("user" ++ toString (1000 + i))),
    ("country", str (["USA", "UK", "Canada", "Australia", "Germany", "France", "Japan",
      "Brazil"].getD (i % 8) "")),
    ("accountID", num (2000 + i)),
    ("openDate", str (src.openDate i)),
    ("userType", num 1),
    ("parentId", null),
    ("emailVerified", JsVal.bool (src.emailVerified i))]

/-- The array `sampleUsers` of `loadSampleData`: fifty users. -/
def sampleUsers (src : SampleSource) : List JsVal :=
  (List.range 50).map (sampleUser src)

/-- The function `loadSampleData()`: the state after the call, and whether it threw. -/
def loadSampleData (src : SampleSource) (v : View) : View × Bool :=
  refreshPage { v with allUsers := sampleUsers src, filteredUsers := sampleUsers src }

/-- The function `loadUsers()`, given the parsed body of the response to
`GET /api/users` (`none` when the request or the parsing failed): the state after
the call, and whether it threw.  Every failure inside the `try` block, also a
`users` that is not an array and an exception of the three refreshing calls, is
caught and followed by `loadSampleData()`. -/
def loadUsers (src : SampleSource) (response : Option JsVal) (v : View) : View × Bool :=
  match response with
  | none => loadSampleData src v
  | some data =>
    match data.prop "status" with
    | none => loadSampleData src v
    | some status =>
      if status = JsVal.str "success" then
        match data.get "users" with
        | JsVal.arr users =>
          match refreshPage { v with allUsers := users, filteredUsers := users } with
          | (v1, false) => (v1, false)
          | (v1, true) => loadSampleData src v1
        | _ => loadSampleData src v
      else loadSampleData src v

/-- The state of the page when the script starts. -/
def initialView : View where
  allUsers := []
  filteredUsers := []
  currentPage := 1
  currentView := "table"
  searchInput := ""
  countryFilter := ""
  dateFilter := ""

/-! ## `script.js`: CSV export -/

/-- The texts that the export takes from the browser for a valid date with the
given time value. -/
structure DateText where
  /-- The text of `toLocaleDateString('en-US', ...)` with the options of
  `formatDate`. -/
  localeDate : Int → String
  /-- The day `toISOString().split('T')[0]`. -/
  isoDay : Int → String

/-- The function `formatDate(dateString)`; an invalid date is written
`Invalid Date`. -/
def formatDate (env : Browser) (fmt : DateText) (dateString : JsVal) : String :=
  if !dateString.truthy then "N/A"
  else
    match env.dateOf dateString with
    | some t => fmt.localeDate t
    | none => "Invalid Date"

/-- The call `xs.join(sep)` on strings. -/
def jsJoin (sep : String) : List String → String
  | [] => ""
  | [x] => x
  | x :: y :: rest => x ++ sep ++ jsJoin sep (y :: rest)

/-- The array `headers` of `exportToCSV`. -/
def csvHeaders : List String :=
  ["User ID", "First Name", "Last Name", "Username", "Country", "Account ID", "Join Date",
    "User Type"]

/-- The texts of the eight fields that `exportToCSV` builds for `user`, as the
template literal converts them; `none` when reading a property of `user` throws. -/
def csvFields (env : Browser) (fmt : DateText) (user : JsVal) : Option (List String) := do
  let userID ← user.prop "userID"
  let firstName ← user.prop "firstName"
  let lastName ← user.prop "lastName"
  let username ← user.prop "username"
  let country ← user.prop "country"
  let accountID ← user.prop "accountID"
  let openDate ← user.prop "openDate"
  let userType ← user.prop "userType"
  pure [
    toStringJs (userID.orElse (str "")),
    toStringJs (firstName.orElse (str "")),
    toStringJs (lastName.orElse (str "")),
    toStringJs (username.orElse (str "")),
    toStringJs (country.orElse (str "")),
    toStringJs (accountID.orElse (str "")),
    formatDate env fmt openDate,
    toStringJs (userType.orElse (str ""))]

/-- The array `csvData`: the fields of every filtered record, in order. -/
def csvData (env : Browser) (fmt : DateText) : List JsVal → Option (List (List String))
  | [] => some []
  | user :: rest => do
    let fields ← csvFields env fmt user
    let others ← csvData env fmt rest
    pure (fields :: others)

/-- One field between double quotes, as the callback of the inner `map` writes it. -/
def quoteField (field : String) : String :=
  String.singleton dquote ++ field ++ String.singleton dquote

/-- One row of the file: its quoted fields joined by commas. -/
def csvLine (row : List String) : String :=
  jsJoin "," (row.map quoteField)

/-- The text `csvContent`: the rows joined by line feeds. -/
def csvContent (rows : List (List String)) : String :=
  jsJoin "\n" (rows.map csvLine)

/-- A call of `showNotification(message, type)`. -/
structure Notice where
  message : String
  type : String
deriving DecidableEq

/-- What a call of `exportToCSV()` does. -/
inductive ExportResult where
  /-- Only the notice of the early return. -/
  | noData (notice : Notice)
  /-- A download of `csvContent` under `filename`, then a notice. -/
  | downloaded (csvContent : String) (filename : String) (notice : Notice)
  /-- An exception while the rows were built: no download and no notice. -/
  | threw
deriving DecidableEq

/-- The function `exportToCSV()`: what it does, and the state after the call. -/
def exportToCSV (env : Browser) (fmt : DateText) (v : View) : ExportResult × View :=
  if v.filteredUsers.length = 0 then
    (.noData ⟨"No data to export", "error"⟩, v)
  else
    match csvData env fmt v.filteredUsers with
    | none => (.threw, v)
    | some rows =>
      (.downloaded (csvContent (csvHeaders :: rows))
        ("winx_trade_users_" ++ fmt.isoDay env.now ++ ".csv")
        ⟨"✅ Exported " ++ toString v.filteredUsers.length ++ " users to CSV", "success"⟩,
       v)

/-- Date texts for evaluating examples: the time value in decimal. -/
def sampleDateText : DateText where
  localeDate := fun t => toString t
  isoDay := fun t => toString (t / 86400000)

/-! ## Vocabulary for the statements about the client data view -/

/-- The pieces of `text.split(sep)` for a one-character separator. -/
def splitChars (sep : Char) : List Char → List (List Char)
  | [] => [[]]
  | c :: cs =>
    if c = sep then [] :: splitChars sep cs
    else
      match splitChars sep cs with
      | [] => [[c]]
      | piece :: pieces => (c :: piece) :: pieces

/-- A name field as the search filter can read it: falsy, or a string. -/
def nameLike (field : JsVal) : Prop :=
  field.truthy = false ∨ ∃ s, field = str s

/-- What a name disjunct of the search filter decides: the field is a non-empty
string whose lower-casing contains the search term. -/
def nameMatches (env : Browser) (field : JsVal) (searchTerm : String) : Bool :=
  match field with
  | JsVal.str s => s != "" && includes (env.toLowerCase s) searchTerm
  | _ => false

/-- The text of a field of a record, when the record has the field. -/
def textOf : JsVal → Option String
  | JsVal.undefined => none
  | JsVal.null => none
  | v => some (toStringJs v)

/-- Clause (a) of the filter as the specification words it: the query is empty, or,
compared case-insensitively, it is a substring of firstName, lastName, username,
country, the text of userID or the text of accountID. -/
def statedSearch (env : Browser) (query : String) (user : JsVal) : Bool :=
  query = "" ||
    ["firstName", "lastName", "username", "country", "userID", "accountID"].any fun key =>
      match textOf (user.get key) with
      | some text => includes (env.toLowerCase text) (env.toLowerCase query)
      | none => false

/-- The conjunction (a), (b), (c) of the filter as the specification words it. -/
def statedKeeps (env : Browser) (query countryFilter dateFilter : String)
    (user : JsVal) : Bool :=
  statedSearch env query user &&
    (countryFilter = "" || decide (user.get "country" = str countryFilter)) &&
    decide (filterByDate env user dateFilter = some true)

/-- Eleven records with the userIDs 1 to 11. -/
def elevenUsers : List JsVal :=
  (List.range 11).map fun i => obj [("userID", num (1 + i))]

/-- A record whose firstName holds a quote, a comma and a line feed. -/
def awkward : JsVal :=
  obj [("userID", num 5),
    ("firstName", str (String.mk ['a', dquote, ',', dquote, 'b', Char.ofNat 10, 'c']))]

/-- What the filter callback decides for a record it can read: (a) the search term
is empty, or it occurs in the lower-cased firstName, lastName, username or
country, or in the text of a truthy userID or accountID; (b) no country is
selected, or the record's country is the selected one; (c) `filterByDate` holds. -/
def keptBy (env : Browser) (searchTerm countryFilter dateFilter : String)
    (user : JsVal) : Bool :=
  (decide (searchTerm = "") ||
    nameMatches env (user.get "firstName") searchTerm ||
    nameMatches env (user.get "lastName") searchTerm ||
    nameMatches env (user.get "username") searchTerm ||
    nameMatches env (user.get "country") searchTerm ||
    matchesText (user.get "userID") searchTerm ||
    matchesText (user.get "accountID") searchTerm) &&
  (decide (countryFilter = "") || decide (user.get "country" = str countryFilter)) &&
  decide (filterByDate env user dateFilter = some true)

/-- A successful body of `GET /api/users` with the given users. -/
def successResponse (users : List JsVal) : JsVal :=
  obj [("status", str "success"), ("users", arr users)]

/-- Random choices for evaluating examples. -/
def sampleSource : SampleSource where
  openDate := fun _ => "2024-01-15T10:30:00.000Z"
  emailVerified := fun i => i % 2 = 0

/-! # Theorems -/

/-! ## Basic facts about values -/

theorem prop_eq_get {v : JsVal} (h : v.isNullish = false) (key : String) :
    v.prop key = some (v.get key) := by
  cases v <;> simp_all [JsVal.prop, JsVal.get, JsVal.isNullish]

theorem not_nullish_of_prop {v u : JsVal} {key : String} (h : v.prop key = some u) :
    v.isNullish = false := by
  cases v <;> simp_all [JsVal.prop, JsVal.isNullish]

theorem get_of_prop {v u : JsVal} {key : String} (h : v.prop key = some u) :
    v.get key = u := by
  simp [JsVal.get, h]

theorem not_nullish_of_truthy {u : JsVal} (h : u.truthy = true) : u.isNullish = false := by
  cases u <;> simp_all [JsVal.truthy, JsVal.isNullish]

theorem orElse_of_truthy {u d : JsVal} (h : u.truthy = true) : u.orElse d = u := by
  simp [JsVal.orElse, h]

theorem orElse_of_falsy {u d : JsVal} (h : u.truthy = false) : u.orElse d = d := by
  simp [JsVal.orElse, h]

theorem sqlEq_iff {column param : JsVal} :
    sqlEq column param = true ↔ param.isNullish = false ∧ column = param := by
  simp [sqlEq]

/-! ## The parameter arrays of `updateUser` and `insertUser` -/

theorem updateValues_eq {user : JsVal} (h : user.isNullish = false) :
    updateValues user = some (storedRow user) := by
  simp [updateValues, storedRow, prop_eq_get h]

theorem insertValues_eq {user : JsVal} (h : user.isNullish = false) :
    insertValues user =
      some { storedRow user with userID := (user.get "userID").orElse null } := by
  simp [insertValues, storedRow, prop_eq_get h]

theorem insertValues_eq_updateValues {user u : JsVal} (h : user.prop "userID" = some u)
    (hu : u.truthy = true) : insertValues user = updateValues user := by
  have hn := not_nullish_of_prop h
  rw [insertValues_eq hn, updateValues_eq hn, get_of_prop h, orElse_of_truthy hu]
  simp [storedRow, get_of_prop h]

theorem updateValues_userID {user u : JsVal} {v : Row} (h : user.prop "userID" = some u)
    (hv : updateValues user = some v) : v.userID = u := by
  rw [updateValues_eq (not_nullish_of_prop h)] at hv
  cases hv; exact get_of_prop h

/-! ## Closed forms of the helpers -/

theorem any_sqlEq_eq_decide (rows : List Row) (u : JsVal) :
    decide ((rows.filter (fun r => sqlEq r.userID u)).length > 0) =
      rows.any (fun r => sqlEq r.userID u) := by
  rw [Bool.eq_iff_iff]
  simp [List.length_pos, List.filter_eq_nil_iff]

theorem userExists_eq (db : Db) (u : JsVal) :
    userExists db u =
      (!db.rejectsNext && db.rows.any (fun r => sqlEq r.userID u), db.next) := by
  unfold userExists selectByUserID
  cases hr : db.rejectsNext
  · simp only [Bool.false_eq_true, if_false, Bool.not_false, Bool.true_and,
      any_sqlEq_eq_decide]
  · simp

theorem updateUser_eq (db : Db) {user : JsVal} {v : Row} (hv : updateValues user = some v) :
    updateUser db user = some (
      if db.rejectsNext then (false, db.next)
      else (db.rows.any (fun r => sqlEq r.userID v.userID),
        { rows := db.rows.map (fun r =>
            if sqlEq r.userID v.userID then { v with userID := r.userID } else r),
          faults := db.faults.tail })) := by
  unfold updateUser updateByUserID
  simp only [hv, Option.bind_eq_bind, Option.some_bind]
  cases hr : db.rejectsNext
  · simp only [Bool.false_eq_true, if_false, any_sqlEq_eq_decide]
    rfl
  · simp

theorem insertUser_eq (db : Db) {user : JsVal} {v : Row} (hv : insertValues user = some v) :
    insertUser db user = some (
      if db.rejectsNext || db.rows.any (fun r => sqlEq r.userID v.userID) then (false, db.next)
      else (true, { rows := db.rows ++ [v], faults := db.faults.tail })) := by
  unfold insertUser insertRow
  simp only [hv, Option.bind_eq_bind, Option.some_bind]
  by_cases h : (db.rejectsNext || db.rows.any (fun r => sqlEq r.userID v.userID)) = true
  · rw [if_pos h, if_pos h]; rfl
  · rw [if_neg h, if_neg h]; rfl

/-! ## The loop of `POST /api/saveUsers`, one record at a time -/

theorem tail_tail_eq_drop {α : Type} (l : List α) : l.tail.tail = l.drop 2 := by
  rcases l with _ | ⟨a, _ | ⟨b, l⟩⟩ <;> rfl

theorem sqlEq_of_truthy {u : JsVal} (hu : u.truthy = true) (column : JsVal) :
    sqlEq column u = decide (column = u) := by
  simp [sqlEq, not_nullish_of_truthy hu]

theorem saveUsersLoop_throw {user : JsVal} (rest : List JsVal) (db : Db) (c : Counts)
    (hid : user.prop "userID" = none) :
    saveUsersLoop (user :: rest) db c = (db, none) := by
  simp [saveUsersLoop, hid]

theorem saveUsersLoop_skip {user u : JsVal} (rest : List JsVal) (db : Db) (c : Counts)
    (hid : user.prop "userID" = some u) (hu : u.truthy = false) :
    saveUsersLoop (user :: rest) db c = saveUsersLoop rest db c := by
  simp [saveUsersLoop, hid, hu]

theorem Db.next_rows (db : Db) : db.next.rows = db.rows := rfl

theorem Db.next_faults (db : Db) : db.next.faults = db.faults.tail := rfl

theorem Db.next_next (db : Db) : db.next.next = ⟨db.rows, db.faults.drop 2⟩ := by
  simp [Db.next, tail_tail_eq_drop]

theorem saveUsersLoop_cons {user u : JsVal} {v : Row} (rest : List JsVal) (db : Db)
    (c : Counts) (hid : user.prop "userID" = some u) (hu : u.truthy = true)
    (hv : updateValues user = some v) :
    saveUsersLoop (user :: rest) db c =
      if db.next.rejectsNext = true then
        saveUsersLoop rest ⟨db.rows, db.faults.drop 2⟩ c.failed
      else if db.rows.any (fun r => decide (r.userID = u)) = false then
        saveUsersLoop rest ⟨db.rows ++ [v], db.faults.drop 2⟩ c.saved
      else if db.rejectsNext = true then
        saveUsersLoop rest ⟨db.rows, db.faults.drop 2⟩ c.failed
      else
        saveUsersLoop rest
          ⟨db.rows.map (fun r => if r.userID = u then v else r), db.faults.drop 2⟩
          c.updated := by
  have hvi : insertValues user = some v := by rw [insertValues_eq_updateValues hid hu, hv]
  have hvu : v.userID = u := updateValues_userID hid hv
  have hmap : (db.rows.map fun r =>
      if sqlEq r.userID u = true then { v with userID := r.userID } else r) =
      db.rows.map (fun r => if r.userID = u then v else r) := by
    apply List.map_congr_left
    intro r _
    by_cases hr : r.userID = u
    · have : ({ v with userID := r.userID } : Row) = v := by rw [hr, ← hvu]
      rw [if_pos (by simp [sqlEq_of_truthy hu, hr]), if_pos hr, this]
    · rw [if_neg (by simp [sqlEq_of_truthy hu, hr]), if_neg hr]
  have hany : (db.rows.any fun r => sqlEq r.userID u) =
      db.rows.any (fun r => decide (r.userID = u)) := by
    congr 1; funext r; exact sqlEq_of_truthy hu _
  have hU := updateUser_eq db.next hv
  have hI := insertUser_eq db.next hvi
  rw [hvu, Db.next_rows, Db.next_faults, hany, tail_tail_eq_drop] at hU hI
  rw [hmap] at hU
  rw [Db.next_next] at hU hI
  rw [saveUsersLoop]
  simp only [hid, hu, Bool.not_true, Bool.false_eq_true, if_false]
  rw [userExists_eq, hany]
  cases h1 : db.rejectsNext <;> cases h2 : db.next.rejectsNext <;>
    cases h3 : db.rows.any (fun r => decide (r.userID = u)) <;>
    simp only [h2, h3, Bool.false_eq_true, if_false, if_true, Bool.false_or,
      Bool.true_or] at hU hI <;>
    simp only [Bool.not_false, Bool.not_true, Bool.and_true, Bool.and_false, Bool.false_and,
      Bool.true_and, hU, hI, Bool.false_eq_true, Bool.true_eq_false, if_false, if_true]

theorem saveUsersLoop_append (pre post : List JsVal) (db : Db) (c : Counts) :
    saveUsersLoop (pre ++ post) db c =
      match saveUsersLoop pre db c with
      | (db1, some c1) => saveUsersLoop post db1 c1
      | (db1, none) => (db1, none) := by
  induction pre generalizing db c with
  | nil => simp [saveUsersLoop]
  | cons user pre ih =>
    rw [List.cons_append]
    cases hid : user.prop "userID" with
    | none => simp [saveUsersLoop_throw _ _ _ hid]
    | some u =>
      cases hu : u.truthy with
      | false => rw [saveUsersLoop_skip _ _ _ hid hu, saveUsersLoop_skip _ _ _ hid hu, ih]
      | true =>
        obtain ⟨v, hv⟩ : ∃ v, updateValues user = some v :=
          ⟨_, updateValues_eq (not_nullish_of_prop hid)⟩
        rw [saveUsersLoop_cons _ _ _ hid hu hv, saveUsersLoop_cons _ _ _ hid hu hv]
        split_ifs <;> exact ih _ _

theorem saveUsersLoop_failed (users : List JsVal) (db : Db) (c : Counts) :
    saveUsersLoop users db c.failed =
      ((saveUsersLoop users db c).1, (saveUsersLoop users db c).2.map Counts.failed) := by
  induction users generalizing db c with
  | nil => simp [saveUsersLoop]
  | cons user rest ih =>
    cases hid : user.prop "userID" with
    | none => simp [saveUsersLoop_throw _ _ _ hid]
    | some u =>
      cases hu : u.truthy with
      | false => rw [saveUsersLoop_skip _ _ _ hid hu, saveUsersLoop_skip _ _ _ hid hu, ih]
      | true =>
        obtain ⟨v, hv⟩ : ∃ v, updateValues user = some v :=
          ⟨_, updateValues_eq (not_nullish_of_prop hid)⟩
        have e1 : c.failed.saved = c.saved.failed := rfl
        have e2 : c.failed.updated = c.updated.failed := rfl
        rw [saveUsersLoop_cons _ _ _ hid hu hv, saveUsersLoop_cons _ _ _ hid hu hv]
        split_ifs <;> simp only [e1, e2, ih]

/-! ## The handler in terms of its loop -/

theorem saveUsersLoop_step {user u : JsVal} (rest : List JsVal) (db : Db) (c : Counts)
    (hid : user.prop "userID" = some u) (hu : u.truthy = true) :
    saveUsersLoop (user :: rest) db c =
      if db.next.rejectsNext = true then
        saveUsersLoop rest ⟨db.rows, db.faults.drop 2⟩ c.failed
      else if db.rows.any (fun r => decide (r.userID = u)) = false then
        saveUsersLoop rest ⟨db.rows ++ [storedRow user], db.faults.drop 2⟩ c.saved
      else if db.rejectsNext = true then
        saveUsersLoop rest ⟨db.rows, db.faults.drop 2⟩ c.failed
      else
        saveUsersLoop rest
          ⟨db.rows.map (fun r => if r.userID = u then storedRow user else r),
            db.faults.drop 2⟩
          c.updated :=
  saveUsersLoop_cons rest db c hid hu (updateValues_eq (not_nullish_of_prop hid))

theorem saveUsers_of_carries (db : Db) {body : JsVal} {users : List JsVal}
    (hb : carries body users) (hne : users ≠ []) :
    saveUsers db body =
      match saveUsersLoop users db Counts.zero with
      | (db1, some c) =>
        (.success ⟨users.length, c.savedCount, c.updatedCount, c.errorCount⟩, db1)
      | (db1, none) => (.serverError, db1) := by
  have hlen : ¬ users.length = 0 := by simpa using hne
  rcases hb with rfl | ⟨kvs, rfl, hk⟩
  · simp [saveUsers, JsVal.prop, JsVal.truthy, JsVal.isArray, JsVal.elems, hlen]
  · simp [saveUsers, JsVal.prop, hk, JsVal.truthy, JsVal.isArray, JsVal.elems, hlen]

theorem saveUsers_of_carries_nil (db : Db) {body : JsVal} (hb : carries body []) :
    saveUsers db body = (.noUsers, db) := by
  rcases hb with rfl | ⟨kvs, rfl, hk⟩
  · simp [saveUsers, JsVal.prop, JsVal.truthy, JsVal.isArray, JsVal.elems]
  · simp [saveUsers, JsVal.prop, hk, JsVal.truthy, JsVal.isArray, JsVal.elems]

theorem any_userID_eq_false {rows : List Row} {u : JsVal} :
    rows.any (fun r => decide (r.userID = u)) = false ↔ ∀ r ∈ rows, r.userID ≠ u := by
  simp

theorem any_userID_eq_true {rows : List Row} {u : JsVal} :
    rows.any (fun r => decide (r.userID = u)) = true ↔ ∃ r ∈ rows, r.userID = u := by
  simp

/-! ## Stores that reject nothing -/

theorem healthy_rejectsNext {db : Db} (h : db.healthy) : db.rejectsNext = false := by
  unfold Db.rejectsNext
  rcases hf : db.faults with _ | ⟨b, l⟩
  · rfl
  · exact h b (by simp [hf])

theorem healthy_drop {db : Db} (h : db.healthy) (rows : List Row) (n : Nat) :
    (⟨rows, db.faults.drop n⟩ : Db).healthy :=
  fun b hb => h b (List.mem_of_mem_drop hb)

theorem healthy_next {db : Db} (h : db.healthy) : db.next.healthy :=
  fun b hb => h b (List.mem_of_mem_tail hb)

theorem saveUsersLoop_step_healthy {user u : JsVal} (rest : List JsVal) (db : Db)
    (c : Counts) (hok : db.healthy) (hid : user.prop "userID" = some u)
    (hu : u.truthy = true) :
    saveUsersLoop (user :: rest) db c =
      if db.rows.any (fun r => decide (r.userID = u)) = false then
        saveUsersLoop rest ⟨db.rows ++ [storedRow user], db.faults.drop 2⟩ c.saved
      else
        saveUsersLoop rest
          ⟨db.rows.map (fun r => if r.userID = u then storedRow user else r),
            db.faults.drop 2⟩
          c.updated := by
  rw [saveUsersLoop_step rest db c hid hu, healthy_rejectsNext hok,
    healthy_rejectsNext (healthy_next hok)]
  simp

/-! ## C1 -/

/-- C1: for a record with a truthy userID that the store does not contain yet, and a
store that rejects no statement, a first request with the record answers
`{totalReceived: 1, newUsers: 1, updatedUsers: 0, errors: 0}`, a second request with
a record of the same userID answers `{totalReceived: 1, newUsers: 0, updatedUsers: 1,
errors: 0}`, and afterwards the table is the old table followed by one row for
that userID, holding the typed fields and the JSON text of the second record. -/
theorem saveUsers_insert_then_update (db : Db) (body1 body2 rec1 rec2 u : JsVal)
    (hb1 : carries body1 [rec1]) (hb2 : carries body2 [rec2])
    (h1 : rec1.prop "userID" = some u) (h2 : rec2.prop "userID" = some u)
    (hu : u.truthy = true) (hnew : ∀ r ∈ db.rows, r.userID ≠ u) (hok : db.healthy) :
    (saveUsers db body1).1 = .success ⟨1, 1, 0, 0⟩ ∧
    (saveUsers (saveUsers db body1).2 body2).1 = .success ⟨1, 0, 1, 0⟩ ∧
    (saveUsers (saveUsers db body1).2 body2).2.rows = db.rows ++ [storedRow rec2] ∧
    (storedRow rec2).userID = u ∧
    (storedRow rec2).full_data = jsonStringify rec2 := by
  have hok1 : (⟨db.rows ++ [storedRow rec1], db.faults.drop 2⟩ : Db).healthy :=
    healthy_drop hok _ _
  have e1 : saveUsers db body1 =
      (.success ⟨1, 1, 0, 0⟩, ⟨db.rows ++ [storedRow rec1], db.faults.drop 2⟩) := by
    rw [saveUsers_of_carries db hb1 (by simp), saveUsersLoop_step_healthy _ _ _ hok h1 hu,
      if_pos (any_userID_eq_false.mpr hnew)]
    simp [saveUsersLoop, Counts.saved, Counts.zero]
  have hu1 : (storedRow rec1).userID = u := get_of_prop h1
  have e2 : saveUsers ⟨db.rows ++ [storedRow rec1], db.faults.drop 2⟩ body2 =
      (.success ⟨1, 0, 1, 0⟩,
        ⟨db.rows ++ [storedRow rec2], (db.faults.drop 2).drop 2⟩) := by
    rw [saveUsers_of_carries _ hb2 (by simp), saveUsersLoop_step_healthy _ _ _ hok1 h2 hu,
      if_neg (by simp [hu1])]
    have hmap : (db.rows ++ [storedRow rec1]).map
        (fun r => if r.userID = u then storedRow rec2 else r) =
        db.rows ++ [storedRow rec2] := by
      rw [List.map_append, List.map_congr_left (g := id) (fun r hr => by simp [hnew r hr])]
      simp [hu1]
    simp [saveUsersLoop, Counts.updated, Counts.zero, hmap]
  rw [e1, e2]
  exact ⟨rfl, rfl, rfl, get_of_prop h2, rfl⟩

/-- Witness of C1: the example of the specification.  On the empty table,
`[{userID: 1001, firstName: "John", country: "USA"}]` is counted as one new user,
`[{userID: 1001, firstName: "Jonathan"}]` next as one updated user, and the only row
then has firstName `"Jonathan"`, an empty country and the JSON text of the second
record. -/
theorem saveUsers_insert_then_update_witness :
    (saveUsers ⟨[], []⟩ (arr [john])).1 = .success ⟨1, 1, 0, 0⟩ ∧
    (saveUsers (saveUsers ⟨[], []⟩ (arr [john])).2 (arr [jonathan])).1 =
      .success ⟨1, 0, 1, 0⟩ ∧
    (saveUsers (saveUsers ⟨[], []⟩ (arr [john])).2 (arr [jonathan])).2.rows =
      [⟨num 1001, str "Jonathan", str "", str "", str "", null, null, num 1, null,
        bool false, str "\x7b\"userID\":1001,\"firstName\":\"Jonathan\"\x7d"⟩] := by
  have h := saveUsers_insert_then_update ⟨[], []⟩ (arr [john]) (arr [jonathan]) john
    jonathan (num 1001) (Or.inl rfl) (Or.inl rfl) (by decide) (by decide) (by decide)
    (by simp) (by decide)
  exact ⟨h.1, h.2.1, h.2.2.1.trans (by decide)⟩

/-! ## C2 -/

/-- C2: a record of a batch of `POST /api/saveUsers` whose userID is absent or falsy
changes neither the table nor any counter.  Wherever it stands in the batch, the
loop ends with the table and the counters it ends with when the record is left
out; processed alone it returns the table and the counters unchanged; and the
response to a batch containing it is the response to the batch without it, but
for `totalReceived`. -/
theorem saveUsers_skips_record_without_userID (db : Db) (c : Counts)
    (pre post : List JsVal) (user : JsVal)
    (hrec : user.isNullish = false) (hid : (user.get "userID").truthy = false) :
    saveUsersLoop (pre ++ user :: post) db c = saveUsersLoop (pre ++ post) db c ∧
    saveUsersLoop [user] db c = (db, some c) ∧
    ∀ body body1, carries body (pre ++ user :: post) → carries body1 (pre ++ post) →
      pre ++ post ≠ [] →
      saveUsers db body =
        match saveUsers db body1 with
        | (.success s, db1) =>
          (.success { s with totalReceived := s.totalReceived + 1 }, db1)
        | other => other := by
  have hp : user.prop "userID" = some (user.get "userID") := prop_eq_get hrec _
  have hloop : saveUsersLoop (pre ++ user :: post) db c = saveUsersLoop (pre ++ post) db c := by
    rw [saveUsersLoop_append, saveUsersLoop_append pre post]
    rcases saveUsersLoop pre db c with ⟨db1, _ | c1⟩
    · rfl
    · exact saveUsersLoop_skip post db1 c1 hp hid
  refine ⟨hloop, ?_, ?_⟩
  · rw [saveUsersLoop_skip [] db c hp hid]; rfl
  · intro body body1 hb hb1 hne
    have hloop0 : saveUsersLoop (pre ++ user :: post) db Counts.zero =
        saveUsersLoop (pre ++ post) db Counts.zero := by
      rw [saveUsersLoop_append, saveUsersLoop_append pre post]
      rcases saveUsersLoop pre db Counts.zero with ⟨db1, _ | c1⟩
      · rfl
      · exact saveUsersLoop_skip post db1 c1 hp hid
    rw [saveUsers_of_carries db hb (by simp), saveUsers_of_carries db hb1 hne, hloop0]
    rcases saveUsersLoop (pre ++ post) db Counts.zero with ⟨db1, _ | c1⟩
    · rfl
    · simp; omega

/-- Witness of C2: between two valid records, a record without userID leaves the
result of the loop as it is without the record. -/
theorem saveUsers_skips_record_without_userID_witness :
    saveUsersLoop ([john] ++ anonymous :: [jonathan]) ⟨[], []⟩ Counts.zero =
      saveUsersLoop ([john] ++ [jonathan]) ⟨[], []⟩ Counts.zero ∧
    saveUsersLoop [anonymous] ⟨[], []⟩ Counts.zero = (⟨[], []⟩, some Counts.zero) :=
  have h := saveUsers_skips_record_without_userID ⟨[], []⟩ Counts.zero [john] [jonathan]
    anonymous (by decide) (by decide)
  ⟨h.1, h.2.1⟩

/-! ## C3 -/

/-- C3: `POST /api/fetch-external-data` does not skip a record without userID.  For
the fetched array `[{firstName: "Ann"}]` and the empty table it inserts a row with
a `NULL` userID and reports one new user, where `POST /api/saveUsers` leaves the
table empty and counts nothing. -/
theorem fetchExternalData_inserts_record_without_userID :
    fetchExternalData ⟨[], []⟩ (arr [anonymous]) =
      (.success ⟨1, 0, 1⟩,
        ⟨[⟨null, str "Ann", str "", str "", str "", null, null, num 1, null, bool false,
            jsonStringify anonymous⟩], []⟩) ∧
    saveUsers ⟨[], []⟩ (arr [anonymous]) = (.success ⟨1, 0, 0, 0⟩, ⟨[], []⟩) := by
  decide

/-! ## C4 -/

theorem saveUsersLoop_counts (users : List JsVal) (db : Db) (c : Counts)
    (hrec : ∀ x ∈ users, x.isNullish = false) :
    ∃ db1 c1, saveUsersLoop users db c = (db1, some c1) ∧
      c1.savedCount + c1.updatedCount + c1.errorCount =
        c.savedCount + c.updatedCount + c.errorCount +
          (users.filter fun x => (x.get "userID").truthy).length := by
  induction users generalizing db c with
  | nil => exact ⟨db, c, rfl, by simp⟩
  | cons user rest ih =>
    have hn : user.isNullish = false := hrec user (by simp)
    have hrest : ∀ x ∈ rest, x.isNullish = false := fun x hx => hrec x (by simp [hx])
    have hp : user.prop "userID" = some (user.get "userID") := prop_eq_get hn _
    cases hu : (user.get "userID").truthy with
    | false =>
      obtain ⟨db1, c1, h1, h2⟩ := ih db c hrest
      exact ⟨db1, c1, by rw [saveUsersLoop_skip rest db c hp hu, h1], by simp [hu, h2]⟩
    | true =>
      rw [saveUsersLoop_step rest db c hp hu]
      split_ifs
      all_goals
        first
          | (obtain ⟨db1, c1, h1, h2⟩ := ih _ c.failed hrest
             exact ⟨db1, c1, h1, by simp [hu, h2, Counts.failed]; omega⟩)
          | (obtain ⟨db1, c1, h1, h2⟩ := ih _ c.saved hrest
             exact ⟨db1, c1, h1, by simp [hu, h2, Counts.saved]; omega⟩)
          | (obtain ⟨db1, c1, h1, h2⟩ := ih _ c.updated hrest
             exact ⟨db1, c1, h1, by simp [hu, h2, Counts.updated]; omega⟩)

/-- C4: for a non-empty batch of records, the summary of `POST /api/saveUsers`
partitions the batch: `totalReceived` is the length of the batch, `newUsers +
updatedUsers + errors` is the number of records with a truthy userID, and the
difference is the number of records without one. -/
theorem saveUsers_summary_partitions_batch (db : Db) (body : JsVal) (users : List JsVal)
    (hb : carries body users) (hne : users ≠ [])
    (hrec : ∀ x ∈ users, x.isNullish = false) :
    ∃ s db1, saveUsers db body = (.success s, db1) ∧
      s.totalReceived = users.length ∧
      s.newUsers + s.updatedUsers + s.errors =
        (users.filter fun x => (x.get "userID").truthy).length ∧
      s.totalReceived - (s.newUsers + s.updatedUsers + s.errors) =
        (users.filter fun x => !(x.get "userID").truthy).length := by
  obtain ⟨db1, c1, h1, h2⟩ := saveUsersLoop_counts users db Counts.zero hrec
  refine ⟨⟨users.length, c1.savedCount, c1.updatedCount, c1.errorCount⟩, db1, ?_, rfl, ?_, ?_⟩
  · rw [saveUsers_of_carries db hb hne, h1]
  · simpa [Counts.zero] using h2
  · have h3 : c1.savedCount + c1.updatedCount + c1.errorCount =
        (users.filter fun x => (x.get "userID").truthy).length := by
      simpa [Counts.zero] using h2
    have h4 := List.length_eq_length_filter_add (l := users)
      (fun x : JsVal => (x.get "userID").truthy)
    simp only [h3]
    omega

/-- Witness of C4: a batch of three records, one of them without userID. -/
theorem saveUsers_summary_partitions_batch_witness :
    ∃ s db1, saveUsers ⟨[], []⟩ (arr [john, anonymous, jonathan]) = (.success s, db1) ∧
      s.totalReceived = [john, anonymous, jonathan].length ∧
      s.newUsers + s.updatedUsers + s.errors =
        ([john, anonymous, jonathan].filter fun x => (x.get "userID").truthy).length ∧
      s.totalReceived - (s.newUsers + s.updatedUsers + s.errors) =
        ([john, anonymous, jonathan].filter fun x => !(x.get "userID").truthy).length :=
  saveUsers_summary_partitions_batch ⟨[], []⟩ (arr [john, anonymous, jonathan])
    [john, anonymous, jonathan] (Or.inl rfl) (by simp) (by decide)

/-! ## C5 -/

theorem write_results {user u : JsVal} (db : Db) (hid : user.prop "userID" = some u)
    (hu : u.truthy = true) :
    userExists db u =
      (!db.rejectsNext && db.rows.any (fun r => decide (r.userID = u)), db.next) ∧
    (updateUser db.next user).map Prod.fst =
      some (!db.next.rejectsNext && db.rows.any (fun r => decide (r.userID = u))) ∧
    (insertUser db.next user).map Prod.fst =
      some (!(db.next.rejectsNext || db.rows.any (fun r => decide (r.userID = u)))) := by
  have hv := updateValues_eq (not_nullish_of_prop hid)
  have hvi : insertValues user = some (storedRow user) := by
    rw [insertValues_eq_updateValues hid hu, hv]
  have hvu : (storedRow user).userID = u := get_of_prop hid
  have hany : (db.rows.any fun r => sqlEq r.userID u) =
      db.rows.any (fun r => decide (r.userID = u)) := by
    congr 1; funext r; exact sqlEq_of_truthy hu _
  refine ⟨by rw [userExists_eq, hany], ?_, ?_⟩
  · rw [updateUser_eq db.next hv, hvu, Db.next_rows, hany]
    cases db.next.rejectsNext <;> simp
  · rw [insertUser_eq db.next hvi, hvu, Db.next_rows, hany]
    cases db.next.rejectsNext <;>
      cases db.rows.any (fun r => decide (r.userID = u)) <;> simp

/-- C5: in the loop of `POST /api/saveUsers`, a record with a truthy userID whose
`updateUser` or `insertUser` answers false (the store rejected the statement)
adds one to `errorCount` only and leaves the rows of the table as they were; the
rest of the batch is then processed from these rows, with the very result it has
without the failing record, one error added. -/
theorem saveUsers_rejected_write_is_counted (db : Db) (c : Counts) (user u : JsVal)
    (rest : List JsVal) (hid : user.prop "userID" = some u) (hu : u.truthy = true)
    (hrej : (if (userExists db u).1 = true
        then (updateUser (userExists db u).2 user).map Prod.fst
        else (insertUser (userExists db u).2 user).map Prod.fst) = some false) :
    saveUsersLoop [user] db c = (⟨db.rows, db.faults.drop 2⟩, some c.failed) ∧
    saveUsersLoop (user :: rest) db c =
      ((saveUsersLoop rest ⟨db.rows, db.faults.drop 2⟩ c).1,
        (saveUsersLoop rest ⟨db.rows, db.faults.drop 2⟩ c).2.map Counts.failed) := by
  obtain ⟨hE, hU, hI⟩ := write_results db hid hu
  have key : ∀ l : List JsVal, saveUsersLoop (user :: l) db c =
      saveUsersLoop l ⟨db.rows, db.faults.drop 2⟩ c.failed := by
    intro l
    rw [saveUsersLoop_step l db c hid hu]
    rw [hE] at hrej
    revert hrej hU hI
    cases db.rejectsNext <;> cases db.next.rejectsNext <;>
      cases db.rows.any (fun r => decide (r.userID = u)) <;>
      intro hU hI hrej <;> simp_all
  exact ⟨by rw [key]; rfl, by rw [key, saveUsersLoop_failed]⟩

/-- Witness of C5: the insert of the first record is rejected; it is counted as an
error, the table stays empty, and the second record is then inserted. -/
theorem saveUsers_rejected_write_is_counted_witness :
    saveUsersLoop [john] ⟨[], [false, true]⟩ Counts.zero =
      (⟨[], []⟩, some ⟨0, 0, 1⟩) ∧
    saveUsersLoop [john, jonathan] ⟨[], [false, true]⟩ Counts.zero =
      (⟨[storedRow jonathan], []⟩, some ⟨1, 0, 1⟩) := by
  have h := saveUsers_rejected_write_is_counted ⟨[], [false, true]⟩ Counts.zero john
    (num 1001) [jonathan] (by decide) (by decide) (by decide)
  exact ⟨h.1, h.2.trans (by decide)⟩

/-! ## C6 -/

/-- C6, as stated, fails: in `{userID: 7, userType: 0, accountID: 0}` the fields
`userType` and `accountID` are present, yet the inserted row holds the defaults
`1` and `NULL` and not the values of the record. -/
theorem insertUser_defaults_present_zero :
    zeroTyped.prop "userType" = some (num 0) ∧
    zeroTyped.prop "accountID" = some (num 0) ∧
    insertUser ⟨[], []⟩ zeroTyped =
      some (true,
        ⟨[⟨num 7, str "", str "", str "", str "", null, null, num 1, null, bool false,
            jsonStringify zeroTyped⟩], []⟩) := by
  decide

/-- C6, amended: for a record whose userID is not in the table and a statement the
store accepts, `insertUser` appends one row.  Each typed field of it is the
record's value where that value is truthy and otherwise the default (empty
string for firstName, lastName, username and country, `1` for userType, `false`
for emailVerified, `NULL` for openDate, accountID and parentId); the blob is the
JSON text of the whole record.  In particular a field that is missing gets its
default. -/
theorem insertUser_writes_defaulted_row (db : Db) (user : JsVal)
    (hrec : user.isNullish = false)
    (hnew : ∀ r ∈ db.rows, r.userID ≠ user.get "userID")
    (hacc : db.rejectsNext = false) :
    ∃ row, insertUser db user = some (true, ⟨db.rows ++ [row], db.faults.tail⟩) ∧
      row.userID = (if (user.get "userID").truthy then user.get "userID" else null) ∧
      row.firstName =
        (if (user.get "firstName").truthy then user.get "firstName" else str "") ∧
      row.lastName =
        (if (user.get "lastName").truthy then user.get "lastName" else str "") ∧
      row.username =
        (if (user.get "username").truthy then user.get "username" else str "") ∧
      row.country = (if (user.get "country").truthy then user.get "country" else str "") ∧
      row.openDate = (if (user.get "openDate").truthy then user.get "openDate" else null) ∧
      row.accountID =
        (if (user.get "accountID").truthy then user.get "accountID" else null) ∧
      row.userType = (if (user.get "userType").truthy then user.get "userType" else num 1) ∧
      row.parentId = (if (user.get "parentId").truthy then user.get "parentId" else null) ∧
      row.emailVerified =
        (if (user.get "emailVerified").truthy then user.get "emailVerified"
          else bool false) ∧
      row.full_data = jsonStringify user ∧
      (user.get "firstName" = undefined → row.firstName = str "") ∧
      (user.get "lastName" = undefined → row.lastName = str "") ∧
      (user.get "username" = undefined → row.username = str "") ∧
      (user.get "country" = undefined → row.country = str "") ∧
      (user.get "userType" = undefined → row.userType = num 1) ∧
      (user.get "emailVerified" = undefined → row.emailVerified = JsVal.bool false) ∧
      (user.get "openDate" = undefined → row.openDate = null) ∧
      (user.get "accountID" = undefined → row.accountID = null) ∧
      (user.get "parentId" = undefined → row.parentId = null) := by
  refine ⟨{ storedRow user with userID := (user.get "userID").orElse null }, ?_,
    rfl, rfl, rfl, rfl, rfl, rfl, rfl, rfl, rfl, rfl, rfl, ?_, ?_, ?_, ?_, ?_, ?_, ?_, ?_, ?_⟩
  · rw [insertUser_eq db (insertValues_eq hrec), hacc]
    have hno : (db.rows.any fun r =>
        sqlEq r.userID ((user.get "userID").orElse null)) = false := by
      rw [List.any_eq_false]
      intro r hr
      cases ht : (user.get "userID").truthy with
      | false => simp [orElse_of_falsy ht, sqlEq, JsVal.isNullish]
      | true => simp [orElse_of_truthy ht, sqlEq, hnew r hr]
    simp [hno]
  all_goals
    intro h
    simp [storedRow, h, JsVal.orElse, JsVal.truthy]

/-- Witness of C6 (amended): the first record of the example, inserted into the
empty table. -/
theorem insertUser_writes_defaulted_row_witness :
    ∃ row : Row, insertUser ⟨[], []⟩ john = some (true, ⟨[] ++ [row], []⟩) ∧
      row.firstName = str "John" ∧ row.lastName = str "" ∧ row.country = str "USA" ∧
      row.userType = num 1 ∧ row.accountID = null ∧ row.emailVerified = JsVal.bool false ∧
      row.full_data = jsonStringify john := by
  obtain ⟨row, h, _, h1, _, _, h4, _, _, _, _, _, h10, _, m2, _, _, m5, m6, _, m8, _⟩ :=
    insertUser_writes_defaulted_row ⟨[], []⟩ john (by decide) (by simp) (by decide)
  exact ⟨row, h, h1.trans (by decide), m2 (by decide), h4.trans (by decide),
    m5 (by decide), m8 (by decide), m6 (by decide), h10⟩

/-! ## C7 -/

/-- C7: `updateUser` replaces, it does not patch.  For a record with userID `u`
(not `NULL`) and a statement the store accepts, every row whose userID is `u`
becomes `storedRow user`, a row computed from the incoming record alone: its userID
is still `u`, the blob is the JSON text of the record, and every typed field that
the record lacks holds the default, whatever the row held before.  The other rows
are untouched, and the call answers true exactly when a row has that userID. -/
theorem updateUser_replaces_whole_row (db : Db) (user u : JsVal)
    (hid : user.prop "userID" = some u) (hu : u.isNullish = false)
    (hacc : db.rejectsNext = false) :
    updateUser db user =
      some (db.rows.any (fun r => decide (r.userID = u)),
        ⟨db.rows.map (fun r => if r.userID = u then storedRow user else r),
          db.faults.tail⟩) ∧
    (storedRow user).userID = u ∧
    (storedRow user).full_data = jsonStringify user ∧
    (user.get "firstName" = undefined → (storedRow user).firstName = str "") ∧
    (user.get "lastName" = undefined → (storedRow user).lastName = str "") ∧
    (user.get "username" = undefined → (storedRow user).username = str "") ∧
    (user.get "country" = undefined → (storedRow user).country = str "") ∧
    (user.get "openDate" = undefined → (storedRow user).openDate = null) ∧
    (user.get "accountID" = undefined → (storedRow user).accountID = null) ∧
    (user.get "userType" = undefined → (storedRow user).userType = num 1) ∧
    (user.get "parentId" = undefined → (storedRow user).parentId = null) ∧
    (user.get "emailVerified" = undefined → (storedRow user).emailVerified = bool false) := by
  have hvu : (storedRow user).userID = u := get_of_prop hid
  have hs : ∀ column : JsVal, sqlEq column u = decide (column = u) := by
    intro column; simp [sqlEq, hu]
  refine ⟨?_, hvu, rfl, ?_, ?_, ?_, ?_, ?_, ?_, ?_, ?_, ?_⟩
  · rw [updateUser_eq db (updateValues_eq (not_nullish_of_prop hid)), hacc, hvu]
    simp only [Bool.false_eq_true, if_false, hs, decide_eq_true_eq]
    congr 3
    apply List.map_congr_left
    intro r _
    by_cases hr : r.userID = u
    · have : ({ storedRow user with userID := r.userID } : Row) = storedRow user := by
        rw [hr, ← hvu]
      rw [if_pos hr, if_pos hr, this]
    · rw [if_neg hr, if_neg hr]
  all_goals
    intro h
    simp [storedRow, h, JsVal.orElse, JsVal.truthy]

/-- Witness of C7: the row of the first record of the example is updated with the
second one, which has no country: the stored country becomes the empty string. -/
theorem updateUser_replaces_whole_row_witness :
    updateUser ⟨[storedRow john], []⟩ jonathan =
      some (true,
        ⟨[⟨num 1001, str "Jonathan", str "", str "", str "", null, null, num 1, null,
            bool false, jsonStringify jonathan⟩], []⟩) := by
  have h := (updateUser_replaces_whole_row ⟨[storedRow john], []⟩ jonathan (num 1001)
    (by decide) (by decide) (by decide)).1
  exact h.trans (by decide)

/-! ## Rows after an insert and after an update -/

theorem userID_replace {sr : Row} {w : JsVal} (hsr : sr.userID = w) (r : Row) :
    (if r.userID = w then sr else r).userID = r.userID := by
  by_cases h : r.userID = w
  · rw [if_pos h, hsr, h]
  · rw [if_neg h]

theorem exists_userID_replace {sr : Row} {w u : JsVal} (hsr : sr.userID = w)
    (rows : List Row) :
    (∃ r ∈ rows.map (fun r => if r.userID = w then sr else r), r.userID = u) ↔
      ∃ r ∈ rows, r.userID = u := by
  constructor
  · rintro ⟨r, hr, hru⟩
    obtain ⟨r0, hr0, rfl⟩ := List.mem_map.mp hr
    exact ⟨r0, hr0, by rw [← hru, userID_replace hsr]⟩
  · rintro ⟨r, hr, hru⟩
    exact ⟨_, List.mem_map.mpr ⟨r, hr, rfl⟩, by rw [userID_replace hsr, hru]⟩

theorem mem_replace_other {sr : Row} {w u : JsVal} (hsr : sr.userID = w) (hwu : w ≠ u)
    (rows : List Row) (r : Row) :
    (r ∈ rows.map (fun r => if r.userID = w then sr else r) ∧ r.userID = u) ↔
      (r ∈ rows ∧ r.userID = u) := by
  constructor
  · rintro ⟨hr, hru⟩
    obtain ⟨r0, hr0, rfl⟩ := List.mem_map.mp hr
    by_cases h : r0.userID = w
    · rw [if_pos h, hsr] at hru; exact absurd hru hwu
    · rw [if_neg h] at hru ⊢; exact ⟨hr0, hru⟩
  · rintro ⟨hr, hru⟩
    refine ⟨List.mem_map.mpr ⟨r, hr, ?_⟩, hru⟩
    rw [if_neg (by rw [hru]; exact fun h => hwu h.symm)]

theorem exists_userID_append (rows : List Row) (sr : Row) (u : JsVal) :
    (∃ r ∈ rows ++ [sr], r.userID = u) ↔ (∃ r ∈ rows, r.userID = u) ∨ sr.userID = u := by
  constructor
  · rintro ⟨r, hr, hru⟩
    rcases List.mem_append.mp hr with h | h
    · exact Or.inl ⟨r, h, hru⟩
    · rw [List.mem_singleton.mp h] at hru; exact Or.inr hru
  · rintro (⟨r, hr, hru⟩ | h)
    · exact ⟨r, List.mem_append.mpr (Or.inl hr), hru⟩
    · exact ⟨sr, by simp, h⟩

theorem exists_prop_cons (user : JsVal) (rest : List JsVal) (u : JsVal) :
    (∃ y ∈ user :: rest, y.prop "userID" = some u) ↔
      user.prop "userID" = some u ∨ ∃ y ∈ rest, y.prop "userID" = some u := by
  simp

/-! ## C8 -/

theorem saveUsersLoop_healthy (users : List JsVal) (db : Db) (c : Counts)
    (hok : db.healthy) (hrec : ∀ x ∈ users, x.isNullish = false)
    (u : JsVal) (hu : u.truthy = true) :
    ∃ db1 c1, saveUsersLoop users db c = (db1, some c1) ∧ db1.healthy ∧
      ((∃ r ∈ db1.rows, r.userID = u) ↔
        (∃ r ∈ db.rows, r.userID = u) ∨ ∃ y ∈ users, y.prop "userID" = some u) ∧
      ((∀ y ∈ users, y.prop "userID" ≠ some u) →
        ∀ r, (r ∈ db1.rows ∧ r.userID = u) ↔ (r ∈ db.rows ∧ r.userID = u)) := by
  induction users generalizing db c with
  | nil => exact ⟨db, c, rfl, hok, by simp, fun _ _ => Iff.rfl⟩
  | cons user rest ih =>
    have hn : user.isNullish = false := hrec user (by simp)
    have hrest : ∀ x ∈ rest, x.isNullish = false := fun x hx => hrec x (by simp [hx])
    have hp : user.prop "userID" = some (user.get "userID") := prop_eq_get hn _
    have hsr : (storedRow user).userID = user.get "userID" := rfl
    cases hw : (user.get "userID").truthy with
    | false =>
      have hne : user.prop "userID" ≠ some u := by
        rw [hp]; intro h; cases h; rw [hw] at hu; cases hu
      obtain ⟨db1, c1, h1, h2, h3, h4⟩ := ih db c hok hrest
      refine ⟨db1, c1, by rw [saveUsersLoop_skip rest db c hp hw, h1], h2, ?_, ?_⟩
      · rw [h3, exists_prop_cons]; simp [hne]
      · intro hall
        exact h4 fun y hy => hall y (by simp [hy])
    | true =>
      rw [saveUsersLoop_step_healthy rest db c hok hp hw]
      by_cases hany : db.rows.any (fun r => decide (r.userID = user.get "userID")) = false
      · rw [if_pos hany]
        obtain ⟨db1, c1, h1, h2, h3, h4⟩ :=
          ih ⟨db.rows ++ [storedRow user], db.faults.drop 2⟩ c.saved
            (healthy_drop hok _ _) hrest
        refine ⟨db1, c1, h1, h2, ?_, ?_⟩
        · rw [h3, exists_userID_append, exists_prop_cons, hp, hsr, Option.some.injEq,
            or_assoc]
        · intro hall r
          have hwu : user.get "userID" ≠ u := by
            intro h; exact hall user (by simp) (by rw [hp, h])
          rw [h4 (fun y hy => hall y (by simp [hy]))]
          simp only [List.mem_append, List.mem_singleton]
          constructor
          · rintro ⟨hr | rfl, hru⟩
            · exact ⟨hr, hru⟩
            · exact absurd hru hwu
          · rintro ⟨hr, hru⟩
            exact ⟨Or.inl hr, hru⟩
      · rw [if_neg hany]
        obtain ⟨db1, c1, h1, h2, h3, h4⟩ :=
          ih ⟨db.rows.map (fun r => if r.userID = user.get "userID" then storedRow user else r),
            db.faults.drop 2⟩ c.updated (healthy_drop hok _ _) hrest
        have hpres : ∃ r ∈ db.rows, r.userID = user.get "userID" := by
          rw [← any_userID_eq_true]; simpa using hany
        refine ⟨db1, c1, h1, h2, ?_, ?_⟩
        · rw [h3, exists_userID_replace hsr, exists_prop_cons, hp, Option.some.injEq]
          constructor
          · rintro (h | h)
            · exact Or.inl h
            · exact Or.inr (Or.inr h)
          · rintro (h | h | h)
            · exact Or.inl h
            · rw [h] at hpres; exact Or.inl hpres
            · exact Or.inr h
        · intro hall r
          have hwu : user.get "userID" ≠ u := by
            intro h; exact hall user (by simp) (by rw [hp, h])
          rw [h4 (fun y hy => hall y (by simp [hy]))]
          exact mem_replace_other hsr hwu db.rows r

/-- C8: last write wins inside a batch, for a store that rejects no statement.  Let
the batch be `pre ++ x :: post` with `x` a record of truthy userID `u`.  The
occurrence `x` is counted as an update when `u` was in the table before the batch
or a record of `pre` has userID `u`, and as an insert otherwise.  When no record of
`post` has userID `u` (so `x` is the last one), after the batch the table has a row
with userID `u` and every such row is `storedRow x`, the typed fields and blob of
`x`. -/
theorem saveUsers_last_write_wins (db : Db) (pre post : List JsVal) (x u : JsVal)
    (hok : db.healthy) (hrec : ∀ y ∈ pre ++ x :: post, y.isNullish = false)
    (hid : x.prop "userID" = some u) (hu : u.truthy = true) :
    ∃ db1 c1 db2 c2 db3 c3,
      saveUsersLoop pre db Counts.zero = (db1, some c1) ∧
      saveUsersLoop (pre ++ [x]) db Counts.zero = (db2, some c2) ∧
      saveUsersLoop (pre ++ x :: post) db Counts.zero = (db3, some c3) ∧
      (∀ body, carries body (pre ++ x :: post) →
        saveUsers db body =
          (.success ⟨(pre ++ x :: post).length, c3.savedCount, c3.updatedCount,
            c3.errorCount⟩, db3)) ∧
      (((∃ r ∈ db.rows, r.userID = u) ∨ ∃ y ∈ pre, y.prop "userID" = some u) →
        c2 = c1.updated) ∧
      (¬((∃ r ∈ db.rows, r.userID = u) ∨ ∃ y ∈ pre, y.prop "userID" = some u) →
        c2 = c1.saved) ∧
      ((∀ y ∈ post, y.prop "userID" ≠ some u) →
        (∃ r ∈ db3.rows, r.userID = u) ∧ ∀ r ∈ db3.rows, r.userID = u → r = storedRow x) := by
  have hpre : ∀ y ∈ pre, y.isNullish = false := fun y hy => hrec y (by simp [hy])
  have hpost : ∀ y ∈ post, y.isNullish = false := fun y hy => hrec y (by simp [hy])
  have hsr : (storedRow x).userID = u := get_of_prop hid
  obtain ⟨db1, c1, e1, hok1, hmem1, _⟩ := saveUsersLoop_healthy pre db Counts.zero hok hpre u hu
  -- the state after the occurrence `x`
  obtain ⟨db2, c2, hstep, hok2, hc2u, hc2s, hex2, hall2⟩ :
      ∃ db2 c2, (∀ l, saveUsersLoop (x :: l) db1 c1 = saveUsersLoop l db2 c2) ∧ db2.healthy ∧
        ((∃ r ∈ db1.rows, r.userID = u) → c2 = c1.updated) ∧
        (¬(∃ r ∈ db1.rows, r.userID = u) → c2 = c1.saved) ∧
        (∃ r ∈ db2.rows, r.userID = u) ∧ ∀ r ∈ db2.rows, r.userID = u → r = storedRow x := by
    by_cases hany : db1.rows.any (fun r => decide (r.userID = u)) = false
    · have hno : ¬ ∃ r ∈ db1.rows, r.userID = u := by
        rw [← any_userID_eq_true, hany]; simp
      refine ⟨⟨db1.rows ++ [storedRow x], db1.faults.drop 2⟩, c1.saved, ?_,
        healthy_drop hok1 _ _, fun h => absurd h hno, fun _ => rfl,
        ⟨storedRow x, by simp, hsr⟩, ?_⟩
      · intro l; rw [saveUsersLoop_step_healthy l db1 c1 hok1 hid hu, if_pos hany]
      · intro r hr hru
        rcases List.mem_append.mp hr with h | h
        · exact absurd ⟨r, h, hru⟩ hno
        · simpa using h
    · have hyes : ∃ r ∈ db1.rows, r.userID = u := by
        rw [← any_userID_eq_true]; simpa using hany
      refine ⟨⟨db1.rows.map (fun r => if r.userID = u then storedRow x else r),
        db1.faults.drop 2⟩, c1.updated, ?_, healthy_drop hok1 _ _, fun _ => rfl,
        fun h => absurd hyes h, (exists_userID_replace hsr db1.rows).mpr hyes, ?_⟩
      · intro l; rw [saveUsersLoop_step_healthy l db1 c1 hok1 hid hu, if_neg hany]
      · intro r hr hru
        obtain ⟨r0, _, rfl⟩ := List.mem_map.mp hr
        by_cases h : r0.userID = u
        · rw [if_pos h]
        · rw [if_neg h] at hru; exact absurd hru h
  obtain ⟨db3, c3, e3, _, _, hkeep⟩ := saveUsersLoop_healthy post db2 c2 hok2 hpost u hu
  have e2 : saveUsersLoop (pre ++ [x]) db Counts.zero = (db2, some c2) := by
    rw [saveUsersLoop_append, e1]
    simp only [hstep]; rfl
  have e4 : saveUsersLoop (pre ++ x :: post) db Counts.zero = (db3, some c3) := by
    rw [saveUsersLoop_append, e1]
    simp only [hstep, e3]
  refine ⟨db1, c1, db2, c2, db3, c3, e1, e2, e4, ?_, ?_, ?_, ?_⟩
  · intro body hb
    rw [saveUsers_of_carries db hb (by simp), e4]
  · intro h; exact hc2u (hmem1.mpr h)
  · intro h; exact hc2s (fun h1 => h (hmem1.mp h1))
  · intro hlast
    have hk := hkeep hlast
    obtain ⟨r, hr, hru⟩ := hex2
    exact ⟨⟨r, ((hk r).mpr ⟨hr, hru⟩).1, hru⟩,
      fun r hr hru => hall2 r ((hk r).mp ⟨hr, hru⟩).1 hru⟩

/-- Witness of C8: the two records of the example in one batch, on the empty
table. -/
theorem saveUsers_last_write_wins_witness :
    ∃ db1 c1 db2 c2 db3 c3,
      saveUsersLoop [john] ⟨[], []⟩ Counts.zero = (db1, some c1) ∧
      saveUsersLoop ([john] ++ [jonathan]) ⟨[], []⟩ Counts.zero = (db2, some c2) ∧
      saveUsersLoop ([john] ++ jonathan :: []) ⟨[], []⟩ Counts.zero = (db3, some c3) ∧
      (∀ body, carries body ([john] ++ jonathan :: []) →
        saveUsers ⟨[], []⟩ body =
          (.success ⟨([john] ++ jonathan :: []).length, c3.savedCount, c3.updatedCount,
            c3.errorCount⟩, db3)) ∧
      (((∃ r ∈ (⟨[], []⟩ : Db).rows, r.userID = num 1001) ∨
          ∃ y ∈ [john], y.prop "userID" = some (num 1001)) → c2 = c1.updated) ∧
      (¬((∃ r ∈ (⟨[], []⟩ : Db).rows, r.userID = num 1001) ∨
          ∃ y ∈ [john], y.prop "userID" = some (num 1001)) → c2 = c1.saved) ∧
      ((∀ y ∈ ([] : List JsVal), y.prop "userID" ≠ some (num 1001)) →
        (∃ r ∈ db3.rows, r.userID = num 1001) ∧
          ∀ r ∈ db3.rows, r.userID = num 1001 → r = storedRow jonathan) :=
  saveUsers_last_write_wins ⟨[], []⟩ [john] [] jonathan (num 1001) (by decide)
    (by decide) (by decide) (by decide)

/-! ## C9 -/

theorem nodup_ids_append (keep : JsVal → Bool) {rows : List Row} {sr : Row}
    (h : ((rows.map (fun r => r.userID)).filter keep).Nodup)
    (hnew : ∀ r ∈ rows, r.userID ≠ sr.userID) :
    (((rows ++ [sr]).map (fun r => r.userID)).filter keep).Nodup := by
  rw [List.map_append, List.filter_append]
  refine List.Nodup.append h ?_ ?_
  · simp only [List.map_cons, List.map_nil]
    cases hn : keep sr.userID <;> simp [List.filter, hn]
  · intro a ha hb
    have ha1 := (List.mem_filter.mp ha).1
    have hb1 := (List.mem_filter.mp hb).1
    obtain ⟨r, hr, rfl⟩ := List.mem_map.mp ha1
    simp only [List.map_cons, List.map_nil, List.mem_singleton] at hb1
    exact hnew r hr hb1

theorem nodup_ids_replace (keep : JsVal → Bool) {rows : List Row} {sr : Row} {w : JsVal}
    (hsr : sr.userID = w) (h : ((rows.map (fun r => r.userID)).filter keep).Nodup) :
    (((rows.map (fun r => if r.userID = w then sr else r)).map
      (fun r => r.userID)).filter keep).Nodup := by
  rw [List.map_map]
  have : ((fun r : Row => r.userID) ∘ fun r => if r.userID = w then sr else r) =
      fun r => r.userID := by
    funext r; exact userID_replace hsr r
  rw [this]; exact h

theorem saveUsersLoop_nodup_ids (keep : JsVal → Bool) (users : List JsVal) (db : Db)
    (c : Counts) (h : ((db.rows.map (fun r => r.userID)).filter keep).Nodup) :
    (((saveUsersLoop users db c).1.rows.map (fun r => r.userID)).filter keep).Nodup := by
  induction users generalizing db c with
  | nil => exact h
  | cons user rest ih =>
    cases hid : user.prop "userID" with
    | none => rw [saveUsersLoop_throw rest db c hid]; exact h
    | some u =>
      cases hu : u.truthy with
      | false => rw [saveUsersLoop_skip rest db c hid hu]; exact ih db c h
      | true =>
        have hsr : (storedRow user).userID = u := get_of_prop hid
        rw [saveUsersLoop_step rest db c hid hu]
        split_ifs with h1 h2 h3
        · exact ih _ _ h
        · refine ih _ _ (nodup_ids_append keep h ?_)
          rw [hsr]; exact any_userID_eq_false.mp h2
        · exact ih _ _ h
        · exact ih _ _ (nodup_ids_replace keep hsr h)

theorem saveUsers_nodup_ids (keep : JsVal → Bool) (db : Db) (body : JsVal)
    (h : ((db.rows.map (fun r => r.userID)).filter keep).Nodup) :
    (((saveUsers db body).2.rows.map (fun r => r.userID)).filter keep).Nodup := by
  unfold saveUsers
  cases body.prop "data" with
  | none => exact h
  | some data =>
    simp only
    split
    · exact h
    · rename_i users _
      split
      · exact h
      · have hl := saveUsersLoop_nodup_ids keep users db Counts.zero h
        split <;> rename_i heq <;> rw [heq] at hl <;> exact hl

theorem saveUsers_sequence_nodup_ids (keep : JsVal → Bool) (bodies : List JsVal) (db : Db)
    (h : ((db.rows.map (fun r => r.userID)).filter keep).Nodup) :
    (((bodies.foldl (fun d body => (saveUsers d body).2) db).rows.map
      (fun r => r.userID)).filter keep).Nodup := by
  induction bodies generalizing db with
  | nil => exact h
  | cons body rest ih => exact ih _ (saveUsers_nodup_ids keep db body h)

/-- C9, as stated, fails: a record whose userID is not in the table is not always
inserted.  On the empty table, `{userID: 1001, ...}` is not inserted when the store
rejects the `INSERT` (it is counted as an error), and `{userID: 0}` is not
inserted because its userID is falsy (it is skipped). -/
theorem saveUsers_absent_userID_not_inserted :
    saveUsers ⟨[], [false, true]⟩ (arr [john]) = (.success ⟨1, 0, 0, 1⟩, ⟨[], []⟩) ∧
    saveUsers ⟨[], []⟩ (arr [obj [("userID", num 0)]]) =
      (.success ⟨1, 0, 0, 0⟩, ⟨[], []⟩) := by
  decide

/-- C9, amended: if no two rows share a userID that is not `NULL`, the same holds
after any sequence of requests to `POST /api/saveUsers`, whatever the store
rejects; and if no two rows share a userID at all, `NULL` included, that holds
afterwards too.  For every record processed by the loop, in any state: if it is counted
in `savedCount`, its userID was in no row before and a row for it is appended; if
it is counted in `updatedCount`, its userID was in a row before; and when its
userID is truthy and the store accepts its lookup and its write, it is inserted
if its userID was in no row and updated otherwise. -/
theorem saveUsers_keeps_userID_unique (db : Db) (bodies : List JsVal)
    (huniq : uniqueIDs db.rows) :
    uniqueIDs (bodies.foldl (fun d body => (saveUsers d body).2) db).rows ∧
    ((db.rows.map (fun r => r.userID)).Nodup →
      ((bodies.foldl (fun d body => (saveUsers d body).2) db).rows.map
        (fun r => r.userID)).Nodup) ∧
    ∀ (d : Db) (c : Counts) (user u : JsVal) (d1 : Db) (c1 : Counts),
      user.prop "userID" = some u → saveUsersLoop [user] d c = (d1, some c1) →
      (c1.savedCount = c.savedCount + 1 →
        (∀ r ∈ d.rows, r.userID ≠ u) ∧ d1.rows = d.rows ++ [storedRow user]) ∧
      (c1.updatedCount = c.updatedCount + 1 → ∃ r ∈ d.rows, r.userID = u) ∧
      (u.truthy = true → d.rejectsNext = false → d.next.rejectsNext = false →
        ((∀ r ∈ d.rows, r.userID ≠ u) →
          c1 = c.saved ∧ d1.rows = d.rows ++ [storedRow user]) ∧
        ((∃ r ∈ d.rows, r.userID = u) →
          c1 = c.updated ∧
          d1.rows = d.rows.map (fun r => if r.userID = u then storedRow user else r))) := by
  refine ⟨saveUsers_sequence_nodup_ids _ bodies db huniq, ?_, ?_⟩
  · intro h
    have h1 := saveUsers_sequence_nodup_ids (fun _ => true) bodies db (by simpa using h)
    simpa using h1
  · intro d c user u d1 c1 hid hrun
    cases hu : u.truthy with
    | false =>
      rw [saveUsersLoop_skip [] d c hid hu] at hrun
      cases hrun
      exact ⟨fun h => by omega, fun h => by omega, fun h => by cases h⟩
    | true =>
      rw [saveUsersLoop_step [] d c hid hu] at hrun
      by_cases h1 : d.next.rejectsNext = true
      · rw [if_pos h1] at hrun
        cases hrun
        exact ⟨fun h => by simp [Counts.failed] at h, fun h => by simp [Counts.failed] at h,
          fun _ _ h => by rw [h1] at h; cases h⟩
      · rw [if_neg h1] at hrun
        by_cases h2 : d.rows.any (fun r => decide (r.userID = u)) = false
        · rw [if_pos h2] at hrun
          cases hrun
          have hno := any_userID_eq_false.mp h2
          exact ⟨fun _ => ⟨hno, rfl⟩, fun h => by simp [Counts.saved] at h,
            fun _ _ _ => ⟨fun _ => ⟨rfl, rfl⟩,
              fun ⟨r, hr, hru⟩ => absurd hru (hno r hr)⟩⟩
        · rw [if_neg h2] at hrun
          have hyes : ∃ r ∈ d.rows, r.userID = u := by
            rw [← any_userID_eq_true]; simpa using h2
          by_cases h3 : d.rejectsNext = true
          · rw [if_pos h3] at hrun
            cases hrun
            exact ⟨fun h => by simp [Counts.failed] at h,
              fun h => by simp [Counts.failed] at h,
              fun _ h _ => by rw [h3] at h; cases h⟩
          · rw [if_neg h3] at hrun
            cases hrun
            exact ⟨fun h => by simp [Counts.updated] at h, fun _ => hyes,
              fun _ _ _ => ⟨fun hno => by
                obtain ⟨r, hr, hru⟩ := hyes
                exact absurd hru (hno r hr), fun _ => ⟨rfl, rfl⟩⟩⟩

/-- Witness of C9 (amended): the two requests of the example, on the empty table. -/
theorem saveUsers_keeps_userID_unique_witness :
    uniqueIDs ([arr [john], arr [jonathan]].foldl
      (fun d body => (saveUsers d body).2) ⟨[], []⟩).rows :=
  (saveUsers_keeps_userID_unique ⟨[], []⟩ [arr [john], arr [jonathan]]
    (by simp [uniqueIDs])).1

/-! ## C10 -/

theorem filterArray_all (p : JsVal → Option Bool) (xs : List JsVal)
    (h : ∀ x ∈ xs, p x = some true) : filterArray p xs = some xs := by
  induction xs with
  | nil => rfl
  | cons x xs ih =>
    have hx := h x (by simp)
    have hxs := ih fun y hy => h y (by simp [hy])
    simp [filterArray, hx, hxs]

/-- C10: with an empty search term (the query lower-cased and trimmed), no country
selected and no date bucket, `filterUsers` sets `filteredUsers` to `allUsers` (the
same records in the same order) and `currentPage` to 1. -/
theorem filterUsers_without_constraint (env : Browser) (v : View)
    (hq : trim (env.toLowerCase v.searchInput) = "") (hc : v.countryFilter = "")
    (hd : v.dateFilter = "") :
    filterUsers env v = some { v with filteredUsers := v.allUsers, currentPage := 1 } ∧
    ∀ w, filterUsers env v = some w →
      w.filteredUsers = v.allUsers ∧ w.filteredUsers.length = v.allUsers.length := by
  have h : filterUsers env v =
      some { v with filteredUsers := v.allUsers, currentPage := 1 } := by
    have hall : filterArray (keepsUser env "" "" "") v.allUsers = some v.allUsers :=
      filterArray_all _ _ fun x _ => by
        simp [keepsUser, matchesSearch, matchesCountry, filterByDate]
    unfold filterUsers
    simp only [hq, hc, hd, hall]
    rfl
  refine ⟨h, ?_⟩
  intro w hw
  rw [h] at hw
  cases hw
  exact ⟨rfl, rfl⟩

/-- Witness of C10: three entries, one of them `null`, an empty query. -/
theorem filterUsers_without_constraint_witness :
    filterUsers sampleBrowser ⟨[john, null, jonathan], [], 3, "grid", "", "", ""⟩ =
      some ⟨[john, null, jonathan], [john, null, jonathan], 1, "grid", "", "", ""⟩ :=
  (filterUsers_without_constraint sampleBrowser
    ⟨[john, null, jonathan], [], 3, "grid", "", "", ""⟩ (by decide) rfl rfl).1

/-! ## C11 -/

theorem orThen_some (a b : Bool) : orThen (some a) (some b) = some (a || b) := by
  cases a <;> rfl

theorem matchesLower_of_nameLike (env : Browser) {field : JsVal} (h : nameLike field)
    (searchTerm : String) :
    matchesLower env field searchTerm = some (nameMatches env field searchTerm) := by
  rcases h with h | ⟨s, rfl⟩
  · cases field <;> simp_all [matchesLower, nameMatches, JsVal.truthy]
  · by_cases hs : s = ""
    · simp [matchesLower, nameMatches, JsVal.truthy, hs]
    · simp [matchesLower, nameMatches, JsVal.truthy, hs]

theorem filterByDate_isSome (env : Browser) {user : JsVal} (h : user.isNullish = false)
    (dateFilter : String) :
    ∃ b, filterByDate env user dateFilter = some b := by
  unfold filterByDate
  by_cases hd : dateFilter = ""
  · exact ⟨true, by simp [hd]⟩
  · rw [if_neg hd, prop_eq_get h]
    exact ⟨_, rfl⟩

theorem keepsUser_eq_keptBy (env : Browser) {user : JsVal} (searchTerm countryFilter
    dateFilter : String) (hrec : user.isNullish = false)
    (hname : ∀ key ∈ ["firstName", "lastName", "username", "country"],
      nameLike (user.get key)) :
    keepsUser env searchTerm countryFilter dateFilter user =
      some (keptBy env searchTerm countryFilter dateFilter user) := by
  obtain ⟨b, hb⟩ := filterByDate_isSome env hrec dateFilter
  have hs : matchesSearch env user searchTerm = some
      (decide (searchTerm = "") ||
        nameMatches env (user.get "firstName") searchTerm ||
        nameMatches env (user.get "lastName") searchTerm ||
        nameMatches env (user.get "username") searchTerm ||
        nameMatches env (user.get "country") searchTerm ||
        matchesText (user.get "userID") searchTerm ||
        matchesText (user.get "accountID") searchTerm) := by
    unfold matchesSearch
    by_cases ht : searchTerm = ""
    · simp [ht]
    · rw [if_neg ht]
      simp only [prop_eq_get hrec, Option.some_bind, Option.map_some',
        matchesLower_of_nameLike env (hname "firstName" (by simp)),
        matchesLower_of_nameLike env (hname "lastName" (by simp)),
        matchesLower_of_nameLike env (hname "username" (by simp)),
        matchesLower_of_nameLike env (hname "country" (by simp)), orThen_some]
      simp [ht, Bool.or_assoc]
  have hc : matchesCountry user countryFilter = some
      (decide (countryFilter = "") || decide (user.get "country" = str countryFilter)) := by
    unfold matchesCountry
    by_cases hcf : countryFilter = ""
    · simp [hcf]
    · simp [hcf, prop_eq_get hrec]
  unfold keepsUser keptBy
  rw [hs, hc, hb]
  cases b <;> simp

theorem filterArray_eq_filter (p : JsVal → Option Bool) (q : JsVal → Bool)
    (xs : List JsVal) (h : ∀ x ∈ xs, p x = some (q x)) :
    filterArray p xs = some (xs.filter q) := by
  induction xs with
  | nil => rfl
  | cons x xs ih =>
    have hx := h x (by simp)
    have hxs := ih fun y hy => h y (by simp [hy])
    cases hq : q x <;> simp [filterArray, hx, hxs, hq, List.filter]

/-- C11, as stated, fails.  With the query `john ` (a trailing blank) the record
`{userID: 1001, firstName: "John", country: "USA"}` is kept, although the query is
not a substring of any of its fields, even case-insensitively; and with the query
`0` the record `{userID: 7, userType: 0, accountID: 0}` is dropped, although `0` is
the text of its accountID. -/
theorem filterUsers_differs_from_stated_clause :
    (filterUsers sampleBrowser ⟨[john], [], 1, "table", "john ", "", ""⟩).map
      (fun w => w.filteredUsers) = some [john] ∧
    [john].filter (statedKeeps sampleBrowser "john " "" "") = [] ∧
    (filterUsers sampleBrowser ⟨[zeroTyped], [], 1, "table", "0", "", ""⟩).map
      (fun w => w.filteredUsers) = some [] ∧
    [zeroTyped].filter (statedKeeps sampleBrowser "0" "" "") = [zeroTyped] := by
  decide

/-- C11, amended: for records that are not `null` and whose firstName, lastName,
username and country are strings or falsy, `filterUsers` keeps exactly the records
of `allUsers`, in their original order, for which `keptBy` holds at the search
term (the query lower-cased and trimmed): (a) the term is empty or occurs in the
lower-cased firstName, lastName, username or country, or in the text of a truthy
userID or accountID, (b) no country is selected or the record's country is the
selected one, (c) `filterByDate` holds.  Two queries with the same lower-casing
give the same result. -/
theorem filterUsers_keeps_matching (env : Browser) (v : View)
    (hrec : ∀ u ∈ v.allUsers, u.isNullish = false)
    (hname : ∀ u ∈ v.allUsers, ∀ key ∈ ["firstName", "lastName", "username", "country"],
      nameLike (u.get key)) :
    filterUsers env v = some { v with
      filteredUsers := v.allUsers.filter
        (keptBy env (trim (env.toLowerCase v.searchInput)) v.countryFilter v.dateFilter)
      currentPage := 1 } ∧
    (v.allUsers.filter
      (keptBy env (trim (env.toLowerCase v.searchInput)) v.countryFilter
        v.dateFilter)).Sublist v.allUsers ∧
    ∀ query, env.toLowerCase query = env.toLowerCase v.searchInput →
      (filterUsers env { v with searchInput := query }).map (fun w => w.filteredUsers) =
        (filterUsers env v).map (fun w => w.filteredUsers) := by
  refine ⟨?_, List.filter_sublist _, ?_⟩
  · unfold filterUsers
    simp only []
    rw [filterArray_eq_filter _
      (keptBy env (trim (env.toLowerCase v.searchInput)) v.countryFilter v.dateFilter)]
    · rfl
    · intro u hu
      exact keepsUser_eq_keptBy env _ _ _ (hrec u hu) (hname u hu)
  · intro query hq
    unfold filterUsers
    simp only [hq]
    cases filterArray (keepsUser env (trim (env.toLowerCase v.searchInput)) v.countryFilter
      v.dateFilter) v.allUsers <;> rfl

/-- Witness of C11 (amended): the query `JOHN` in capitals, the country `USA`
selected, on the two records of the example and a record without names. -/
theorem filterUsers_keeps_matching_witness :
    filterUsers sampleBrowser ⟨[jonathan, john, zeroTyped], [], 4, "table", "JOHN", "USA", ""⟩ =
      some ⟨[jonathan, john, zeroTyped], [john], 1, "table", "JOHN", "USA", ""⟩ := by
  have h := (filterUsers_keeps_matching sampleBrowser
    ⟨[jonathan, john, zeroTyped], [], 4, "table", "JOHN", "USA", ""⟩ (by decide)
    (by
      intro u hu key hkey
      simp only [List.mem_cons, List.mem_singleton, List.not_mem_nil, or_false] at hu hkey
      rcases hu with rfl | rfl | rfl <;> rcases hkey with rfl | rfl | rfl | rfl <;>
        first
          | exact Or.inl (by decide)
          | exact Or.inr ⟨"John", by decide⟩
          | exact Or.inr ⟨"Jonathan", by decide⟩
          | exact Or.inr ⟨"USA", by decide⟩)).1
  exact h.trans (by rfl)

/-! ## C12 -/

/-- C12, as stated, fails: with the date bucket `today`, an empty query and no
country, the record `{firstName: "Ann"}`, which has no openDate, is in the result. -/
theorem filterUsers_today_keeps_undated :
    (filterUsers sampleBrowser ⟨[anonymous], [], 1, "table", "", "", "today"⟩).map
      (fun w => w.filteredUsers) = some [anonymous] ∧
    anonymous.get "openDate" = undefined := by
  decide

/-- C12, amended: with the date bucket `today`, an empty search term and no
country, `filterUsers` keeps exactly the records (none of them `null`) whose
openDate is missing or falsy, or is a valid date whose local day starts when the
current day starts, whatever its time of day; every record of the result is of one
of these two kinds. -/
theorem filterUsers_today (env : Browser) (v : View)
    (hq : trim (env.toLowerCase v.searchInput) = "") (hc : v.countryFilter = "")
    (hd : v.dateFilter = "today") (hrec : ∀ u ∈ v.allUsers, u.isNullish = false) :
    filterUsers env v = some { v with
      filteredUsers := v.allUsers.filter fun u =>
        !(u.get "openDate").truthy ||
          decide ((env.dateOf (u.get "openDate")).map env.startOfDay =
            some (env.startOfDay env.now))
      currentPage := 1 } ∧
    ∀ w, filterUsers env v = some w → ∀ u ∈ w.filteredUsers,
      (u.get "openDate").truthy = false ∨
        ∃ t, env.dateOf (u.get "openDate") = some t ∧
          env.startOfDay t = env.startOfDay env.now := by
  have h : filterUsers env v = some { v with
      filteredUsers := v.allUsers.filter fun u =>
        !(u.get "openDate").truthy ||
          decide ((env.dateOf (u.get "openDate")).map env.startOfDay =
            some (env.startOfDay env.now))
      currentPage := 1 } := by
    unfold filterUsers
    simp only [hq, hc, hd]
    rw [filterArray_eq_filter _ (fun u =>
        !(u.get "openDate").truthy ||
          decide ((env.dateOf (u.get "openDate")).map env.startOfDay =
            some (env.startOfDay env.now)))]
    · rfl
    · intro u hu
      have hn := hrec u hu
      cases ht : (u.get "openDate").truthy <;>
        simp [keepsUser, matchesSearch, matchesCountry, filterByDate, prop_eq_get hn, ht]
  refine ⟨h, ?_⟩
  intro w hw u hu
  rw [h] at hw
  cases hw
  have hu2 := (List.mem_filter.mp hu).2
  cases ht : (u.get "openDate").truthy
  · exact Or.inl rfl
  · right
    simp only [ht, Bool.not_true, Bool.false_or, decide_eq_true_eq] at hu2
    cases hdate : env.dateOf (u.get "openDate") with
    | none => rw [hdate] at hu2; cases hu2
    | some t =>
      rw [hdate] at hu2
      exact ⟨t, rfl, by simpa using hu2⟩

/-- Witness of C12 (amended): records opened at the current instant, one hour
earlier, two days earlier, and never; the third one is dropped. -/
theorem filterUsers_today_witness :
    filterUsers sampleBrowser
      ⟨[obj [("userID", num 1), ("openDate", num 1700000000000)],
        obj [("userID", num 2), ("openDate", num 1699996400000)],
        obj [("userID", num 3), ("openDate", num 1699827200000)],
        anonymous], [], 2, "table", "", "", "today"⟩ =
      some ⟨[obj [("userID", num 1), ("openDate", num 1700000000000)],
        obj [("userID", num 2), ("openDate", num 1699996400000)],
        obj [("userID", num 3), ("openDate", num 1699827200000)],
        anonymous],
        [obj [("userID", num 1), ("openDate", num 1700000000000)],
          obj [("userID", num 2), ("openDate", num 1699996400000)],
          anonymous], 1, "table", "", "", "today"⟩ := by
  have h := (filterUsers_today sampleBrowser
    ⟨[obj [("userID", num 1), ("openDate", num 1700000000000)],
      obj [("userID", num 2), ("openDate", num 1699996400000)],
      obj [("userID", num 3), ("openDate", num 1699827200000)],
      anonymous], [], 2, "table", "", "", "today"⟩ (by decide) rfl rfl (by decide)).1
  exact h.trans (by rfl)

/-! ## C13 -/

/-- C13: a reload keeps `currentPage` as it is, also when the new list is shorter.
From the initial state, a reload with eleven users, `changePage(+1)` and a reload
with one user end on page 2 of 1, with a filtered sequence that is not empty;
`filterUsers` then puts the page back to 1. -/
theorem loadUsers_leaves_page_out_of_range :
    (loadUsers sampleSource (some (successResponse [john]))
      (changePage 1
        (loadUsers sampleSource (some (successResponse elevenUsers)) initialView).1)).1 =
      ⟨[john], [john], 2, "table", "", "", ""⟩ ∧
    totalPages ⟨[john], [john], 2, "table", "", "", ""⟩ = 1 ∧
    (filterUsers sampleBrowser ⟨[john], [john], 2, "table", "", "", ""⟩).map
      (fun w => w.currentPage) = some 1 := by
  refine ⟨by rfl, by decide, by decide⟩

/-! ## C14 -/

theorem totalPages_eq_ceil (v : View) :
    totalPages v = ⌈(v.filteredUsers.length : ℚ) / 10⌉₊ := by
  unfold totalPages usersPerPage
  generalize v.filteredUsers.length = L
  apply le_antisymm
  · rcases Nat.eq_zero_or_pos ((L + (10 - 1)) / 10) with h | h
    · rw [h]; exact Nat.zero_le _
    · have h1 : (L + (10 - 1)) / 10 - 1 < ⌈(L : ℚ) / 10⌉₊ := by
        rw [Nat.lt_ceil, lt_div_iff₀ (by norm_num)]
        have h2 : ((L + (10 - 1)) / 10 - 1) * 10 < L := by omega
        exact_mod_cast h2
      omega
  · rw [Nat.ceil_le, div_le_iff₀ (by norm_num)]
    have h2 : L ≤ ((L + (10 - 1)) / 10) * 10 := by omega
    exact_mod_cast h2

theorem totalPages_pos {v : View} (h : v.filteredUsers ≠ []) : 1 ≤ totalPages v := by
  unfold totalPages usersPerPage
  have : 0 < v.filteredUsers.length := List.length_pos.mpr h
  omega

/-- C14: for a filtered sequence of length `L > 0`, the page count is `ceil(L/10)`
and `updatePagination` shows it; `changePage(+1)` on the last page stays on the last
page, `changePage(-1)` on page 1 stays on page 1, and in between `changePage(+1)` and
`changePage(-1)` move by exactly one page.  Only `currentPage` changes. -/
theorem changePage_moves_one_page (v : View) (hL : v.filteredUsers ≠ []) :
    totalPages v = ⌈(v.filteredUsers.length : ℚ) / 10⌉₊ ∧
    (updatePagination v).pageInfo =
      "Page " ++ toString v.currentPage ++ " of " ++
        toString ⌈(v.filteredUsers.length : ℚ) / 10⌉₊ ∧
    (v.currentPage = totalPages v → (changePage 1 v).currentPage = totalPages v) ∧
    (v.currentPage = 1 → (changePage (-1) v).currentPage = 1) ∧
    (1 ≤ v.currentPage → v.currentPage < totalPages v →
      (changePage 1 v).currentPage = v.currentPage + 1) ∧
    (1 < v.currentPage → v.currentPage ≤ totalPages v →
      (changePage (-1) v).currentPage = v.currentPage - 1) ∧
    ∀ d, changePage d v = { v with currentPage := (changePage d v).currentPage } := by
  have hpos : (1 : Int) ≤ totalPages v := by exact_mod_cast totalPages_pos hL
  refine ⟨totalPages_eq_ceil v, ?_, ?_, ?_, ?_, ?_, fun d => rfl⟩
  · rw [← totalPages_eq_ceil]; rfl
  · intro h
    simp only [changePage]
    split_ifs <;> omega
  · intro h
    simp only [changePage]
    split_ifs <;> omega
  · intro h1 h2
    simp only [changePage]
    split_ifs <;> omega
  · intro h1 h2
    simp only [changePage]
    split_ifs <;> omega

/-- Witness of C14: eleven records make two pages. -/
theorem changePage_moves_one_page_witness :
    totalPages ⟨[], elevenUsers, 1, "table", "", "", ""⟩ = 2 ∧
    (updatePagination ⟨[], elevenUsers, 1, "table", "", "", ""⟩).pageInfo = "Page 1 of 2" ∧
    (changePage 1 ⟨[], elevenUsers, 1, "table", "", "", ""⟩).currentPage = 2 ∧
    (changePage (-1) ⟨[], elevenUsers, 1, "table", "", "", ""⟩).currentPage = 1 := by
  have h := changePage_moves_one_page ⟨[], elevenUsers, 1, "table", "", "", ""⟩ (by decide)
  exact ⟨by decide, by decide, (h.2.2.2.2.1 (by decide) (by decide)).trans (by decide),
    h.2.2.2.1 rfl⟩

/-! ## C15 -/

/-- C15: on an empty filtered sequence the page count is 0 and the showing-count
text is `No users found`, but navigation is not a no-op.  From the current page 1,
where `filterUsers` leaves it, `changePage(+1)` and `changePage(-1)` both end on
page 0: the clamp `if (currentPage > totalPages) currentPage = totalPages` runs
after `if (currentPage < 1) currentPage = 1` and undoes it when there are 0 pages. -/
theorem changePage_empty_moves_to_zero :
    (changePage 1 initialView).currentPage = 0 ∧
    (changePage (-1) initialView).currentPage = 0 ∧
    initialView.currentPage = 1 ∧ initialView.filteredUsers = [] ∧
    totalPages initialView = 0 ∧
    updateShowingCount initialView = "No users found" := by
  decide

/-! ## The text of the CSV export -/

theorem splitChars_of_not_mem (sep : Char) (l : List Char) (h : sep ∉ l) :
    splitChars sep l = [l] := by
  induction l with
  | nil => rfl
  | cons c cs ih =>
    have hc : c ≠ sep := fun e => h (by simp [e])
    have hcs : sep ∉ cs := fun e => h (by simp [e])
    simp [splitChars, hc, ih hcs]

theorem splitChars_append_sep (sep : Char) (a b : List Char) (h : sep ∉ a) :
    splitChars sep (a ++ sep :: b) = a :: splitChars sep b := by
  induction a with
  | nil => simp [splitChars]
  | cons c a ih =>
    have hc : c ≠ sep := fun e => h (by simp [e])
    have ha : sep ∉ a := fun e => h (by simp [e])
    simp [splitChars, hc, ih ha]

theorem jsJoin_data_cons_cons (sep : Char) (x y : String) (rest : List String) :
    (jsJoin (String.singleton sep) (x :: y :: rest)).data =
      x.data ++ sep :: (jsJoin (String.singleton sep) (y :: rest)).data := by
  simp [jsJoin, String.data_append, String.singleton]

theorem splitChars_jsJoin (sep : Char) (xs : List String) (hne : xs ≠ [])
    (h : ∀ x ∈ xs, sep ∉ x.data) :
    splitChars sep (jsJoin (String.singleton sep) xs).data = xs.map String.data := by
  induction xs with
  | nil => exact absurd rfl hne
  | cons x rest ih =>
    cases rest with
    | nil => simpa [jsJoin] using splitChars_of_not_mem sep x.data (h x (by simp))
    | cons y rest =>
      rw [jsJoin_data_cons_cons, splitChars_append_sep sep _ _ (h x (by simp)),
        ih (by simp) (fun z hz => h z (by simp [hz]))]
      rfl

theorem mem_jsJoin_data (sep : Char) (c : Char) (xs : List String)
    (h : c ∈ (jsJoin (String.singleton sep) xs).data) :
    c = sep ∨ ∃ x ∈ xs, c ∈ x.data := by
  induction xs with
  | nil => simp [jsJoin] at h
  | cons x rest ih =>
    cases rest with
    | nil => exact Or.inr ⟨x, by simp, by simpa [jsJoin] using h⟩
    | cons y rest =>
      rw [jsJoin_data_cons_cons] at h
      rcases List.mem_append.mp h with h1 | h1
      · exact Or.inr ⟨x, by simp, h1⟩
      · rcases List.mem_cons.mp h1 with h2 | h2
        · exact Or.inl h2
        · rcases ih h2 with h3 | ⟨z, hz, hcz⟩
          · exact Or.inl h3
          · exact Or.inr ⟨z, by simp [hz], hcz⟩

theorem data_singleton (c : Char) : (String.singleton c).data = [c] := rfl

theorem mem_quoteField_data {c : Char} {field : String} (h : c ∈ (quoteField field).data) :
    c = dquote ∨ c ∈ field.data := by
  simp only [quoteField, String.data_append, data_singleton, List.mem_append,
    List.mem_singleton] at h
  rcases h with (h | h) | h
  · exact Or.inl h
  · exact Or.inr h
  · exact Or.inl h

theorem csvFields_eq (env : Browser) (fmt : DateText) {user : JsVal}
    (h : user.isNullish = false) :
    csvFields env fmt user = some [
      toStringJs ((user.get "userID").orElse (str "")),
      toStringJs ((user.get "firstName").orElse (str "")),
      toStringJs ((user.get "lastName").orElse (str "")),
      toStringJs ((user.get "username").orElse (str "")),
      toStringJs ((user.get "country").orElse (str "")),
      toStringJs ((user.get "accountID").orElse (str "")),
      formatDate env fmt (user.get "openDate"),
      toStringJs ((user.get "userType").orElse (str ""))] := by
  simp [csvFields, prop_eq_get h]

theorem csvData_rows (env : Browser) (fmt : DateText) (users : List JsVal)
    (h : ∀ u ∈ users, u.isNullish = false) :
    ∃ rows : List (List String), csvData env fmt users = some rows ∧
      List.Forall₂ (fun u row => csvFields env fmt u = some row) users rows ∧
      rows.length = users.length ∧ ∀ row ∈ rows, row.length = 8 := by
  induction users with
  | nil => exact ⟨[], rfl, List.Forall₂.nil, rfl, by simp⟩
  | cons u rest ih =>
    obtain ⟨rows, h1, h2, h3, h4⟩ := ih fun x hx => h x (by simp [hx])
    have hu := csvFields_eq env fmt (h u (by simp))
    refine ⟨_ :: rows, by simp [csvData, hu, h1], List.Forall₂.cons hu h2, by simp [h3], ?_⟩
    intro row hrow
    rcases List.mem_cons.mp hrow with rfl | hr
    · rfl
    · exact h4 row hr

/-! ## C16 -/

/-- C16, as stated, fails: values are written between quotes without escaping.  For
the single record `awkward`, whose firstName holds a quote, a comma and a line
feed, the text has three lines and not two, and its second line has three
comma-separated pieces and not eight. -/
theorem exportToCSV_text_breaks_on_unescaped_value :
    ∃ text name notice,
      (exportToCSV sampleBrowser sampleDateText
        ⟨[], [awkward], 1, "table", "", "", ""⟩).1 = .downloaded text name notice ∧
      (splitChars (Char.ofNat 10) text.data).length = 3 ∧
      ((splitChars (Char.ofNat 10) text.data).map
        fun line => (splitChars ',' line).length) = [8, 3, 7] := by
  refine ⟨_, _, _, rfl, by decide, by decide⟩

/-- C16, amended: for a non-empty filtered sequence of `L` records, none of them
`null`, the text built by `exportToCSV` is `L + 1` rows joined by line feeds, the
fixed header and then one row per filtered record in order; every row is 8 fields
joined by commas, every field a value between double quotes, written without
escaping.  When no value holds a line feed, the text splits at line feeds into
exactly these `L + 1` rows; and a row whose values hold no comma splits at commas
into exactly its 8 quoted fields. -/
theorem exportToCSV_rows (env : Browser) (fmt : DateText) (v : View)
    (hne : v.filteredUsers ≠ []) (hrec : ∀ u ∈ v.filteredUsers, u.isNullish = false) :
    ∃ (rows : List (List String)) (name : String) (notice : Notice),
      List.Forall₂ (fun u row => csvFields env fmt u = some row) v.filteredUsers rows ∧
      rows.length = v.filteredUsers.length ∧
      (∀ row ∈ csvHeaders :: rows, row.length = 8) ∧
      (exportToCSV env fmt v).1 =
        .downloaded
          (jsJoin "\n" ((csvHeaders :: rows).map fun row => jsJoin "," (row.map quoteField)))
          name notice ∧
      ((∀ row ∈ rows, ∀ field ∈ row, Char.ofNat 10 ∉ field.data) →
        splitChars (Char.ofNat 10) (csvContent (csvHeaders :: rows)).data =
          (csvHeaders :: rows).map fun row => (csvLine row).data) ∧
      (∀ row ∈ csvHeaders :: rows, (∀ field ∈ row, ',' ∉ field.data) →
        splitChars ',' (csvLine row).data = row.map fun field => (quoteField field).data) := by
  obtain ⟨rows, h1, h2, h3, h4⟩ := csvData_rows env fmt v.filteredUsers hrec
  have hlen : ¬ v.filteredUsers.length = 0 := by
    simpa using hne
  have h8 : ∀ row ∈ csvHeaders :: rows, row.length = 8 := by
    intro row hrow
    rcases List.mem_cons.mp hrow with rfl | hr
    · rfl
    · exact h4 row hr
  refine ⟨rows, "winx_trade_users_" ++ fmt.isoDay env.now ++ ".csv",
    ⟨"✅ Exported " ++ toString v.filteredUsers.length ++ " users to CSV", "success"⟩,
    h2, h3, h8, ?_, ?_, ?_⟩
  · simp only [exportToCSV, if_neg hlen, h1]
    rfl
  · intro hclean
    have hsplit := splitChars_jsJoin (Char.ofNat 10) ((csvHeaders :: rows).map csvLine)
      (by simp) (by
        intro line hline hmem
        obtain ⟨row, hrow, rfl⟩ := List.mem_map.mp hline
        rcases mem_jsJoin_data ',' _ _ hmem with hc | ⟨q, hq, hcq⟩
        · exact absurd hc (by decide)
        · obtain ⟨field, hfield, rfl⟩ := List.mem_map.mp hq
          rcases mem_quoteField_data hcq with hd | hd
          · exact absurd hd (by decide)
          · rcases List.mem_cons.mp hrow with rfl | hr
            · exact (by decide : ∀ f ∈ csvHeaders, Char.ofNat 10 ∉ f.data) field hfield hd
            · exact hclean row hr field hfield hd)
    rw [List.map_map] at hsplit
    exact hsplit
  · intro row hrow hclean
    have hrow8 := h8 row hrow
    have hsplit := splitChars_jsJoin ',' (row.map quoteField)
      (by intro e; rw [List.map_eq_nil_iff] at e; rw [e] at hrow8; cases hrow8)
      (by
        intro q hq hmem
        obtain ⟨field, hfield, rfl⟩ := List.mem_map.mp hq
        rcases mem_quoteField_data hmem with hd | hd
        · exact absurd hd (by decide)
        · exact hclean field hfield hd)
    rw [List.map_map] at hsplit
    exact hsplit

/-- Witness of C16 (amended): the first record of the example and a record without
userID. -/
theorem exportToCSV_rows_witness :
    ∃ (rows : List (List String)) (name : String) (notice : Notice),
      List.Forall₂ (fun u row => csvFields sampleBrowser sampleDateText u = some row)
        [john, anonymous] rows ∧
      rows.length = [john, anonymous].length ∧
      (∀ row ∈ csvHeaders :: rows, row.length = 8) ∧
      (exportToCSV sampleBrowser sampleDateText
        ⟨[], [john, anonymous], 1, "table", "", "", ""⟩).1 =
        .downloaded
          (jsJoin "\n" ((csvHeaders :: rows).map fun row => jsJoin "," (row.map quoteField)))
          name notice ∧
      ((∀ row ∈ rows, ∀ field ∈ row, Char.ofNat 10 ∉ field.data) →
        splitChars (Char.ofNat 10) (csvContent (csvHeaders :: rows)).data =
          (csvHeaders :: rows).map fun row => (csvLine row).data) ∧
      (∀ row ∈ csvHeaders :: rows, (∀ field ∈ row, ',' ∉ field.data) →
        splitChars ',' (csvLine row).data = row.map fun field => (quoteField field).data) :=
  exportToCSV_rows sampleBrowser sampleDateText ⟨[], [john, anonymous], 1, "table", "", "", ""⟩
    (by decide) (by decide)

/-! ## C17 -/

/-- C17, as stated, fails: the record `{firstName: "Ann"}` has no openDate, and its
join date is exported as `N/A`, not as the empty string. -/
theorem csvFields_missing_date_is_not_empty :
    csvFields sampleBrowser sampleDateText anonymous =
      some ["", "Ann", "", "", "", "", "N/A", ""] ∧
    anonymous.get "openDate" = undefined ∧
    quoteField "N/A" ≠ quoteField "" := by
  decide

/-- C17, amended: for a filtered record that is not `null`, each of the seven
columns userID, firstName, lastName, username, country, accountID and userType
whose value is missing is exported as the empty string, the quoted field `""`; a
missing openDate is exported as the join date `N/A`. -/
theorem csvFields_missing_values (env : Browser) (fmt : DateText) (user : JsVal)
    (hrec : user.isNullish = false) :
    ∃ userID firstName lastName username country accountID joinDate userType : String,
      csvFields env fmt user =
        some [userID, firstName, lastName, username, country, accountID, joinDate,
          userType] ∧
      (user.get "userID" = undefined → userID = "") ∧
      (user.get "firstName" = undefined → firstName = "") ∧
      (user.get "lastName" = undefined → lastName = "") ∧
      (user.get "username" = undefined → username = "") ∧
      (user.get "country" = undefined → country = "") ∧
      (user.get "accountID" = undefined → accountID = "") ∧
      (user.get "userType" = undefined → userType = "") ∧
      (user.get "openDate" = undefined → joinDate = "N/A") ∧
      quoteField "" = String.mk [dquote, dquote] := by
  refine ⟨_, _, _, _, _, _, _, _, csvFields_eq env fmt hrec, ?_, ?_, ?_, ?_, ?_, ?_, ?_, ?_,
    by decide⟩
  all_goals
    intro h
    simp [h, JsVal.orElse, JsVal.truthy, toStringJs, formatDate]

/-- Witness of C17 (amended): the second record of the example, which has only
userID and firstName. -/
theorem csvFields_missing_values_witness :
    ∃ userID firstName lastName username country accountID joinDate userType : String,
      csvFields sampleBrowser sampleDateText jonathan =
        some [userID, firstName, lastName, username, country, accountID, joinDate,
          userType] ∧
      lastName = "" ∧ username = "" ∧ country = "" ∧ accountID = "" ∧ userType = "" ∧
      joinDate = "N/A" := by
  obtain ⟨a, b, c, d, e, f, g, i, h, _, _, h2, h3, h4, h5, h6, h7, _⟩ :=
    csvFields_missing_values sampleBrowser sampleDateText jonathan (by decide)
  exact ⟨a, b, c, d, e, f, g, i, h, h2 (by decide), h3 (by decide), h4 (by decide),
    h5 (by decide), h6 (by decide), h7 (by decide)⟩

/-! ## C18 -/

/-- C18: on an empty filtered sequence `exportToCSV` only raises the error notice
`No data to export`: it builds no text, starts no download and leaves the state as
it is.  On a non-empty filtered sequence it never ends that way, and it leaves the
state as it is too. -/
theorem exportToCSV_empty (env : Browser) (fmt : DateText) (v : View)
    (h : v.filteredUsers = []) :
    exportToCSV env fmt v = (.noData ⟨"No data to export", "error"⟩, v) ∧
    ∀ w : View, w.filteredUsers ≠ [] →
      (∀ notice, (exportToCSV env fmt w).1 ≠ .noData notice) ∧
      (exportToCSV env fmt w).2 = w := by
  refine ⟨by simp [exportToCSV, h], ?_⟩
  intro w hw
  have hlen : ¬ w.filteredUsers.length = 0 := by simpa using hw
  unfold exportToCSV
  rw [if_neg hlen]
  cases csvData env fmt w.filteredUsers <;> simp

/-- Witness of C18: the initial state, and a state with one filtered record. -/
theorem exportToCSV_empty_witness :
    exportToCSV sampleBrowser sampleDateText initialView =
      (.noData ⟨"No data to export", "error"⟩, initialView) ∧
    (∀ notice, (exportToCSV sampleBrowser sampleDateText
      ⟨[john], [john], 1, "table", "", "", ""⟩).1 ≠ .noData notice) :=
  have h := exportToCSV_empty sampleBrowser sampleDateText initialView rfl
  ⟨h.1, (h.2 ⟨[john], [john], 1, "table", "", "", ""⟩ (by decide)).1⟩

/-! ## C19 -/

/-- C19: what `exportToCSV` does depends on the filtered sequence only, not on the
current page, the view mode or the other variables: two states with the same
`filteredUsers` get the same text, file name and notice.  A text that is built has
one data row for every filtered record, whatever the number of records on the
visible page. -/
theorem exportToCSV_ignores_page (env : Browser) (fmt : DateText) (v1 v2 : View)
    (h : v1.filteredUsers = v2.filteredUsers) :
    (exportToCSV env fmt v1).1 = (exportToCSV env fmt v2).1 ∧
    ∀ text name notice, (exportToCSV env fmt v1).1 = .downloaded text name notice →
      ∃ rows : List (List String),
        text = csvContent (csvHeaders :: rows) ∧
        rows.length = v1.filteredUsers.length ∧
        List.Forall₂ (fun u row => csvFields env fmt u = some row) v1.filteredUsers rows := by
  have hforall : ∀ (users : List JsVal) (rows : List (List String)),
      csvData env fmt users = some rows →
        List.Forall₂ (fun u row => csvFields env fmt u = some row) users rows := by
    intro users
    induction users with
    | nil =>
      intro rows hr
      simp only [csvData, Option.some.injEq] at hr
      subst hr
      exact List.Forall₂.nil
    | cons u rest ih =>
      intro rows hr
      cases hu : csvFields env fmt u with
      | none => simp [csvData, hu] at hr
      | some fields =>
        cases hrest : csvData env fmt rest with
        | none => simp [csvData, hu, hrest] at hr
        | some others =>
          simp only [csvData, hu, hrest, Option.bind_eq_bind, Option.some_bind,
            Option.pure_def, Option.some.injEq] at hr
          subst hr
          exact List.Forall₂.cons hu (ih others hrest)
  refine ⟨?_, ?_⟩
  · unfold exportToCSV
    rw [h]
    split_ifs
    · rfl
    · cases csvData env fmt v2.filteredUsers <;> rfl
  intro text name notice hd
  unfold exportToCSV at hd
  by_cases hlen : v1.filteredUsers.length = 0
  · rw [if_pos hlen] at hd; cases hd
  · rw [if_neg hlen] at hd
    cases hrows : csvData env fmt v1.filteredUsers with
    | none => rw [hrows] at hd; cases hd
    | some rows =>
      rw [hrows] at hd
      simp only [ExportResult.downloaded.injEq] at hd
      have hf := hforall _ _ hrows
      exact ⟨rows, hd.1.symm, hf.length_eq.symm, hf⟩

/-- Witness of C19: eleven filtered records seen on page 1 of the table and on page
2 of the grid give the same export, with eleven data rows. -/
theorem exportToCSV_ignores_page_witness :
    (exportToCSV sampleBrowser sampleDateText
      ⟨[], elevenUsers, 1, "table", "", "", ""⟩).1 =
      (exportToCSV sampleBrowser sampleDateText
        ⟨elevenUsers, elevenUsers, 2, "grid", "1", "", ""⟩).1 :=
  (exportToCSV_ignores_page sampleBrowser sampleDateText
    ⟨[], elevenUsers, 1, "table", "", "", ""⟩
    ⟨elevenUsers, elevenUsers, 2, "grid", "1", "", ""⟩ rfl).1

/-! ## C20 -/

/-- C20, as stated, fails: with the search query `zzz` in the input, a successful
reload with the record `{userID: 1001, firstName: "John", country: "USA"}` leaves
this record in `filteredUsers`, while applying the filters to the new `allUsers`
keeps no record. -/
theorem loadUsers_does_not_reapply_filters :
    loadUsers sampleSource (some (successResponse [john]))
      ⟨[], [], 1, "table", "zzz", "", ""⟩ =
      (⟨[john], [john], 1, "table", "zzz", "", ""⟩, false) ∧
    (filterUsers sampleBrowser ⟨[john], [john], 1, "table", "zzz", "", ""⟩).map
      (fun w => w.filteredUsers) = some [] := by
  refine ⟨by rfl, by decide⟩

/-- C20, amended: a successful reload, one whose three refreshing calls do not
throw, replaces `allUsers` by the users of the response, sets `filteredUsers` to the
same sequence and resets the country selection; the query and the date bucket stay
as they are, and the filters are not applied.  So `filteredUsers` is the result of
applying the current filters when the search term is empty and no date bucket is
selected. -/
theorem loadUsers_success_replaces_lists (src : SampleSource) (v : View) (data : JsVal)
    (users : List JsVal) (hstatus : data.prop "status" = some (str "success"))
    (husers : data.get "users" = arr users)
    (hok : (refreshPage { v with allUsers := users, filteredUsers := users }).2 = false) :
    (loadUsers src (some data) v).2 = false ∧
    (loadUsers src (some data) v).1.allUsers = users ∧
    (loadUsers src (some data) v).1.filteredUsers = users ∧
    (loadUsers src (some data) v).1.countryFilter = "" ∧
    (loadUsers src (some data) v).1.searchInput = v.searchInput ∧
    (loadUsers src (some data) v).1.dateFilter = v.dateFilter ∧
    ∀ env : Browser, trim (env.toLowerCase v.searchInput) = "" → v.dateFilter = "" →
      (filterUsers env (loadUsers src (some data) v).1).map (fun w => w.filteredUsers) =
        some (loadUsers src (some data) v).1.filteredUsers := by
  have hr : refreshPage { v with allUsers := users, filteredUsers := users } =
      ({ v with allUsers := users, filteredUsers := users, countryFilter := "" }, false) := by
    unfold refreshPage at hok ⊢
    by_cases h1 : updateStatsThrows users = true
    · simp [h1] at hok
    · by_cases h2 : users.any JsVal.isNullish = true
      · simp [h1, populateCountryFilter, h2] at hok
      · simp only [h1, populateCountryFilter, h2, Bool.false_eq_true, if_false] at hok ⊢
        rw [hok]
  have hl : loadUsers src (some data) v =
      ({ v with allUsers := users, filteredUsers := users, countryFilter := "" }, false) := by
    simp only [loadUsers, hstatus, husers, if_true, hr]
  rw [hl]
  refine ⟨rfl, rfl, rfl, rfl, rfl, rfl, ?_⟩
  intro env hq hd
  have h := (filterUsers_without_constraint env
    { v with allUsers := users, filteredUsers := users, countryFilter := "" } hq rfl hd).1
  rw [h]
  rfl

/-- Witness of C20 (amended): a reload with the two records of the example while
the country `USA` is selected. -/
theorem loadUsers_success_replaces_lists_witness :
    (loadUsers sampleSource (some (successResponse [john, jonathan]))
      ⟨elevenUsers, [], 1, "grid", "", "USA", ""⟩).2 = false ∧
    (loadUsers sampleSource (some (successResponse [john, jonathan]))
      ⟨elevenUsers, [], 1, "grid", "", "USA", ""⟩).1.allUsers = [john, jonathan] ∧
    (loadUsers sampleSource (some (successResponse [john, jonathan]))
      ⟨elevenUsers, [], 1, "grid", "", "USA", ""⟩).1.filteredUsers = [john, jonathan] ∧
    (loadUsers sampleSource (some (successResponse [john, jonathan]))
      ⟨elevenUsers, [], 1, "grid", "", "USA", ""⟩).1.countryFilter = "" :=
  have h := loadUsers_success_replaces_lists sampleSource
    ⟨elevenUsers, [], 1, "grid", "", "USA", ""⟩
    (successResponse [john, jonathan]) [john, jonathan] (by decide) (by decide)
    (by decide)
  ⟨h.1, h.2.1, h.2.2.1, h.2.2.2.1⟩

/-! ## C21 -/

/-- C21, as stated, fails: an empty batch is not answered with a summary.  For the
body `[]` and for the body `{data: []}` the handler returns the message
`No users to save` with the fields `saved` and `updated`, and no `summary` object
with `totalReceived`, `newUsers`, `updatedUsers` and `errors`. -/
theorem saveUsers_empty_batch_has_no_summary :
    saveUsers ⟨[], []⟩ (arr []) = (.noUsers, ⟨[], []⟩) ∧
    saveUsers ⟨[], []⟩ (obj [("data", arr [])]) = (.noUsers, ⟨[], []⟩) := by
  decide

/-- C21, amended: for a body that is an array of records or an object whose data
field is an array of records, a non-empty batch is answered with a success that
carries the summary `{totalReceived, newUsers, updatedUsers, errors}`, where
`totalReceived` is the number of records of the batch; the empty batch is answered
with the success `No users to save`, without a summary, and the store is not
touched. -/
theorem saveUsers_answers_summary (db : Db) (body : JsVal) (users : List JsVal)
    (hb : carries body users) (hrec : ∀ x ∈ users, x.isNullish = false) :
    (users ≠ [] → ∃ s db1, saveUsers db body = (.success s, db1) ∧
      s.totalReceived = users.length) ∧
    (users = [] → saveUsers db body = (.noUsers, db)) := by
  constructor
  · intro hne
    obtain ⟨db1, c1, h1, _⟩ := saveUsersLoop_counts users db Counts.zero hrec
    exact ⟨⟨users.length, c1.savedCount, c1.updatedCount, c1.errorCount⟩, db1,
      by rw [saveUsers_of_carries db hb hne, h1], rfl⟩
  · intro he
    subst he
    exact saveUsers_of_carries_nil db hb

/-- Witness of C21: the batch `{data: [john, anonymous]}` on the empty table is
answered with a summary whose `totalReceived` is 2. -/
theorem saveUsers_answers_summary_witness :
    ∃ s db1, saveUsers ⟨[], []⟩ (obj [("data", arr [john, anonymous])]) = (.success s, db1) ∧
      s.totalReceived = 2 :=
  (saveUsers_answers_summary ⟨[], []⟩ (obj [("data", arr [john, anonymous])])
    [john, anonymous] (Or.inr ⟨_, rfl, rfl⟩) (by decide)).1 (by simp)

/-! ## C22 -/

/-- C22: for a parsed body (an array, an object or any value other than `null` and
`undefined`), `POST /api/saveUsers` answers 400 if and only if the body is not an
array and its `data` field is not an array; the handler then returns before the
loop, so the table and the pending statements of the store are as before. -/
theorem saveUsers_bad_request_iff (db : Db) (body : JsVal)
    (hbody : body.isNullish = false) :
    ((saveUsers db body).1 = .badRequest ↔
      (body.isArray = false ∧ (body.get "data").isArray = false)) ∧
    ((saveUsers db body).1 = .badRequest → saveUsers db body = (.badRequest, db)) := by
  have hp : body.prop "data" = some (body.get "data") := prop_eq_get hbody _
  have key : ∀ users : List JsVal,
      (if users.length = 0 then (SaveResponse.noUsers, db)
       else
        match saveUsersLoop users db Counts.zero with
        | (db1, some c) =>
          (SaveResponse.success {
              totalReceived := users.length
              newUsers := c.savedCount
              updatedUsers := c.updatedCount
              errors := c.errorCount }, db1)
        | (db1, none) => (SaveResponse.serverError, db1)).1 ≠ .badRequest := by
    intro users
    split_ifs
    · simp
    · rcases saveUsersLoop users db Counts.zero with ⟨db1, _ | c⟩ <;> simp
  have htr : ∀ d : JsVal, d.isArray = true → d.truthy = true := by
    intro d hd
    cases d <;> simp_all [JsVal.isArray, JsVal.truthy]
  unfold saveUsers
  simp only [hp]
  cases hd : (body.get "data").isArray
  · cases hb : body.isArray
    · simp
    · simp only [Bool.and_false, Bool.false_eq_true, if_false, if_true]
      exact ⟨⟨fun h => absurd h (key _), fun h => by simp at h⟩, fun h => absurd h (key _)⟩
  · simp only [htr _ hd, Bool.and_self, if_true]
    exact ⟨⟨fun h => absurd h (key _), fun h => by simp at h⟩, fun h => absurd h (key _)⟩

/-- Witness of C22: the body `{users: [john]}` is an object without a `data` array;
the answer is 400 and the store is as before. -/
theorem saveUsers_bad_request_iff_witness :
    saveUsers ⟨[], [true]⟩ (obj [("users", arr [john])]) = (.badRequest, ⟨[], [true]⟩) :=
  have h := saveUsers_bad_request_iff ⟨[], [true]⟩ (obj [("users", arr [john])])
    (by decide)
  h.2 (h.1.mpr (by decide))

/-! ## C23 -/

theorem fetchLoop_step {user u : JsVal} (rest : List JsVal) (db : Db) (n m : Nat)
    (hid : user.prop "userID" = some u) (hu : u.truthy = true) :
    fetchLoop (user :: rest) db n m =
      if db.next.rejectsNext = true then
        if db.rejectsNext = false ∧ db.rows.any (fun r => decide (r.userID = u)) = true then
          fetchLoop rest ⟨db.rows, db.faults.drop 2⟩ n (m + 1)
        else
          fetchLoop rest ⟨db.rows, db.faults.drop 2⟩ (n + 1) m
      else if db.rows.any (fun r => decide (r.userID = u)) = false then
        fetchLoop rest ⟨db.rows ++ [storedRow user], db.faults.drop 2⟩ (n + 1) m
      else if db.rejectsNext = true then
        fetchLoop rest ⟨db.rows, db.faults.drop 2⟩ (n + 1) m
      else
        fetchLoop rest
          ⟨db.rows.map (fun r => if r.userID = u then storedRow user else r),
            db.faults.drop 2⟩
          n (m + 1) := by
  have hv := updateValues_eq (not_nullish_of_prop hid)
  have hvi : insertValues user = some (storedRow user) := by
    rw [insertValues_eq_updateValues hid hu, hv]
  have hvu : (storedRow user).userID = u := get_of_prop hid
  have hmap : (db.rows.map fun r =>
      if sqlEq r.userID u = true then { storedRow user with userID := r.userID } else r) =
      db.rows.map (fun r => if r.userID = u then storedRow user else r) := by
    apply List.map_congr_left
    intro r _
    by_cases hr : r.userID = u
    · have : ({ storedRow user with userID := r.userID } : Row) = storedRow user := by
        rw [hr, ← hvu]
      rw [if_pos (by simp [sqlEq_of_truthy hu, hr]), if_pos hr, this]
    · rw [if_neg (by simp [sqlEq_of_truthy hu, hr]), if_neg hr]
  have hany : (db.rows.any fun r => sqlEq r.userID u) =
      db.rows.any (fun r => decide (r.userID = u)) := by
    congr 1; funext r; exact sqlEq_of_truthy hu _
  have hU := updateUser_eq db.next hv
  have hI := insertUser_eq db.next hvi
  rw [hvu, Db.next_rows, Db.next_faults, hany, tail_tail_eq_drop] at hU hI
  rw [hmap] at hU
  rw [Db.next_next] at hU hI
  rw [fetchLoop]
  simp only [hid]
  rw [userExists_eq, hany]
  cases h1 : db.rejectsNext <;> cases h2 : db.next.rejectsNext <;>
    cases h3 : db.rows.any (fun r => decide (r.userID = u)) <;>
    simp only [h2, h3, Bool.false_eq_true, if_false, if_true, Bool.false_or,
      Bool.true_or] at hU hI <;>
    simp only [Bool.not_false, Bool.not_true, Bool.and_true, Bool.and_false, Bool.false_and,
      Bool.true_and, hU, hI, Bool.false_eq_true, Bool.true_eq_false, if_false, if_true,
      and_self, and_true, and_false, false_and, true_and]

theorem fetchLoop_saveUsersLoop (users : List JsVal) (db : Db) (c : Counts) (n m : Nat)
    (hid : ∀ x ∈ users, x.isNullish = false ∧ (x.get "userID").truthy = true) :
    ∃ db1 s p i j,
      saveUsersLoop users db c =
        (db1, some ⟨c.savedCount + s, c.updatedCount + p, c.errorCount + (i + j)⟩) ∧
      fetchLoop users db n m = (db1, some (n + s + i, m + p + j)) ∧
      s + p + i + j = users.length ∧
      (db.healthy → i + j = 0) := by
  induction users generalizing db c n m with
  | nil => exact ⟨db, 0, 0, 0, 0, rfl, rfl, rfl, fun _ => rfl⟩
  | cons user rest ih =>
    have hn : user.isNullish = false := (hid user (by simp)).1
    have hu : (user.get "userID").truthy = true := (hid user (by simp)).2
    have hrest : ∀ x ∈ rest, x.isNullish = false ∧ (x.get "userID").truthy = true :=
      fun x hx => hid x (by simp [hx])
    have hp : user.prop "userID" = some (user.get "userID") := prop_eq_get hn _
    rw [saveUsersLoop_step rest db c hp hu, fetchLoop_step rest db n m hp hu]
    have hh1 : db.healthy → db.rejectsNext = false := fun hok => healthy_rejectsNext hok
    have hh2 : db.healthy → db.next.rejectsNext = false :=
      fun hok => healthy_rejectsNext (healthy_next hok)
    have hh3 : ∀ rows : List Row, db.healthy → (⟨rows, db.faults.drop 2⟩ : Db).healthy :=
      fun rows hok => healthy_drop hok rows 2
    cases h1 : db.rejectsNext <;> cases h2 : db.next.rejectsNext <;>
      cases h3 : db.rows.any (fun r => decide (r.userID = user.get "userID")) <;>
      simp only [Bool.false_eq_true, Bool.true_eq_false, if_false, if_true, and_self,
        and_true, and_false, false_and, true_and] <;>
      simp only [h1, h2, Bool.true_eq_false, imp_false] at hh1 hh2
    · obtain ⟨db1, s, p, i, j, e1, e2, e3, e4⟩ := ih ⟨db.rows ++ [storedRow user], db.faults.drop 2⟩ c.saved (n + 1) m hrest
      refine ⟨db1, s + 1, p, i, j, ?_, ?_, ?_, fun hok => e4 (hh3 _ hok)⟩
      · rw [e1]; simp [Counts.saved]; omega
      · rw [e2]; simp; omega
      · simp; omega
    · obtain ⟨db1, s, p, i, j, e1, e2, e3, e4⟩ := ih ⟨db.rows.map (fun r => if r.userID = user.get "userID" then storedRow user else r),
        db.faults.drop 2⟩ c.updated n (m + 1) hrest
      refine ⟨db1, s, p + 1, i, j, ?_, ?_, ?_, fun hok => e4 (hh3 _ hok)⟩
      · rw [e1]; simp [Counts.updated]; omega
      · rw [e2]; simp; omega
      · simp; omega
    · obtain ⟨db1, s, p, i, j, e1, e2, e3, e4⟩ := ih ⟨db.rows, db.faults.drop 2⟩ c.failed (n + 1) m hrest
      refine ⟨db1, s, p, i + 1, j, ?_, ?_, ?_, fun hok => ?_⟩
      · rw [e1]; simp [Counts.failed]; omega
      · rw [e2]; simp; omega
      · simp; omega
      · exact absurd hok hh2
    · obtain ⟨db1, s, p, i, j, e1, e2, e3, e4⟩ := ih ⟨db.rows, db.faults.drop 2⟩ c.failed n (m + 1) hrest
      refine ⟨db1, s, p, i, j + 1, ?_, ?_, ?_, fun hok => ?_⟩
      · rw [e1]; simp [Counts.failed]; omega
      · rw [e2]; simp; omega
      · simp; omega
      · exact absurd hok hh2
    · obtain ⟨db1, s, p, i, j, e1, e2, e3, e4⟩ := ih ⟨db.rows ++ [storedRow user], db.faults.drop 2⟩ c.saved (n + 1) m hrest
      refine ⟨db1, s + 1, p, i, j, ?_, ?_, ?_, fun hok => e4 (hh3 _ hok)⟩
      · rw [e1]; simp [Counts.saved]; omega
      · rw [e2]; simp; omega
      · simp; omega
    · obtain ⟨db1, s, p, i, j, e1, e2, e3, e4⟩ := ih ⟨db.rows, db.faults.drop 2⟩ c.failed (n + 1) m hrest
      refine ⟨db1, s, p, i + 1, j, ?_, ?_, ?_, fun hok => ?_⟩
      · rw [e1]; simp [Counts.failed]; omega
      · rw [e2]; simp; omega
      · simp; omega
      · exact absurd hok hh1
    · obtain ⟨db1, s, p, i, j, e1, e2, e3, e4⟩ := ih ⟨db.rows, db.faults.drop 2⟩ c.failed (n + 1) m hrest
      refine ⟨db1, s, p, i + 1, j, ?_, ?_, ?_, fun hok => ?_⟩
      · rw [e1]; simp [Counts.failed]; omega
      · rw [e2]; simp; omega
      · simp; omega
      · exact absurd hok hh1
    · obtain ⟨db1, s, p, i, j, e1, e2, e3, e4⟩ := ih ⟨db.rows, db.faults.drop 2⟩ c.failed (n + 1) m hrest
      refine ⟨db1, s, p, i + 1, j, ?_, ?_, ?_, fun hok => ?_⟩
      · rw [e1]; simp [Counts.failed]; omega
      · rw [e2]; simp; omega
      · simp; omega
      · exact absurd hok hh1

/-- A rejected write is counted as a success by `POST /api/fetch-external-data`,
which does not read the result of `updateUser` and `insertUser`.  For the fetched
array `[john]` on an empty table whose `INSERT` is rejected, it reports
`{newUsers: 1, updatedUsers: 0, totalProcessed: 1}`, where `POST /api/saveUsers`
reports `{totalReceived: 1, newUsers: 0, updatedUsers: 0, errors: 1}`. -/
theorem fetchExternalData_counts_rejected_write_as_new :
    fetchExternalData ⟨[], [false, true]⟩ (fetchFromExternalAPI (some (arr [john]))) =
      (.success ⟨1, 0, 1⟩, ⟨[], []⟩) ∧
    saveUsers ⟨[], [false, true]⟩ (arr [john]) = (.success ⟨1, 0, 0, 1⟩, ⟨[], []⟩) := by
  decide

/-- C23, as stated, fails: the summary of `POST /api/fetch-external-data` is not the
summary of `POST /api/saveUsers`.  For the fetched array `[john]` on the empty
table, with a store that rejects nothing, it is `{newUsers: 1, updatedUsers: 0,
totalProcessed: 1}`, without the fields `totalReceived` and `errors`, where
`saveUsers` answers `{totalReceived: 1, newUsers: 1, updatedUsers: 0, errors: 0}`. -/
theorem fetchExternalData_summary_has_other_fields :
    fetchExternalData ⟨[], []⟩ (fetchFromExternalAPI (some (arr [john]))) =
      (.success { newUsers := 1, updatedUsers := 0, totalProcessed := 1 },
        ⟨[storedRow john], []⟩) ∧
    saveUsers ⟨[], []⟩ (arr [john]) =
      (.success { totalReceived := 1, newUsers := 1, updatedUsers := 0, errors := 0 },
        ⟨[storedRow john], []⟩) := by
  decide

/-- C23, amended: on a store that rejects no statement, for a non-empty fetched
array of records that all carry a truthy userID, `POST /api/fetch-external-data`
leaves the store that `POST /api/saveUsers` leaves for that array, and answers with
the summary `{newUsers, updatedUsers, totalProcessed}`, where `newUsers` and
`updatedUsers` are those of `saveUsers` and `totalProcessed` is their sum, which is
the `totalReceived` of `saveUsers`, whose `errors` is 0.  When the external call
fails the answer is 500 and the store is not touched. -/
theorem fetchExternalData_reconciles_like_saveUsers (db : Db) (users : List JsVal)
    (hok : db.healthy) (hne : users ≠ [])
    (hid : ∀ x ∈ users, x.isNullish = false ∧ (x.get "userID").truthy = true) :
    (∃ s db1,
      saveUsers db (arr users) = (.success s, db1) ∧
      fetchExternalData db (fetchFromExternalAPI (some (arr users))) =
        (.success {
            newUsers := s.newUsers
            updatedUsers := s.updatedUsers
            totalProcessed := s.newUsers + s.updatedUsers }, db1) ∧
      s.newUsers + s.updatedUsers = s.totalReceived ∧
      s.totalReceived = users.length ∧
      s.errors = 0) ∧
    fetchExternalData db (fetchFromExternalAPI none) = (.serverError, db) := by
  refine ⟨?_, rfl⟩
  obtain ⟨db1, s, p, i, j, e1, e2, e3, e4⟩ := fetchLoop_saveUsersLoop users db Counts.zero 0 0 hid
  have h0 := e4 hok
  have hi : i = 0 := by omega
  have hj : j = 0 := by omega
  subst hi hj
  refine ⟨⟨users.length, s, p, 0⟩, db1, ?_, ?_, ?_, rfl, rfl⟩
  · rw [saveUsers_of_carries db (Or.inl rfl) hne, e1]
    simp [Counts.zero]
  · simp only [fetchFromExternalAPI, fetchExternalData, JsVal.truthy, JsVal.isArray,
      JsVal.elems, Bool.not_true, Bool.false_eq_true, if_false, if_true, e2]
    simp
  · simp only; omega

/-- Witness of C23 (amended): the fetched array `[john, jonathan]` on the empty
table, one new user and one updated user for both handlers. -/
theorem fetchExternalData_reconciles_like_saveUsers_witness :
    ∃ s db1,
      saveUsers ⟨[], []⟩ (arr [john, jonathan]) = (.success s, db1) ∧
      fetchExternalData ⟨[], []⟩ (fetchFromExternalAPI (some (arr [john, jonathan]))) =
        (.success {
            newUsers := s.newUsers
            updatedUsers := s.updatedUsers
            totalProcessed := s.newUsers + s.updatedUsers }, db1) ∧
      s.newUsers + s.updatedUsers = s.totalReceived ∧
      s.totalReceived = [john, jonathan].length ∧
      s.errors = 0 :=
  (fetchExternalData_reconciles_like_saveUsers ⟨[], []⟩ [john, jonathan] (by decide)
    (by simp) (by decide)).1

/-! ## C24 -/

theorem jsSlice_page (xs : List JsVal) (i : Nat) :
    jsSlice xs ((i : Int) * 10) ((i : Int) * 10 + 10) = (xs.drop (i * 10)).take 10 := by
  unfold jsSlice
  have h1 : ¬ ((i : Int) * 10 < 0) := by omega
  have h2 : ¬ ((i : Int) * 10 + 10 < 0) := by omega
  simp only [h1, h2, if_false]
  rcases Nat.le_total (i * 10) xs.length with h | h
  · have hk : (min ((i : Int) * 10) (xs.length : Int)).toNat = i * 10 := by omega
    have hf : (min ((i : Int) * 10 + 10) (xs.length : Int) -
        min ((i : Int) * 10) (xs.length : Int)).toNat = min 10 (xs.length - i * 10) := by
      omega
    rw [hk, hf, List.take_eq_take, List.length_drop]
    omega
  · have hk : (min ((i : Int) * 10) (xs.length : Int)).toNat = xs.length := by omega
    rw [hk, List.drop_eq_nil_of_le (Nat.le_refl _), List.drop_eq_nil_of_le h,
      List.take_nil, List.take_nil]

theorem usersToShow_eq (v : View) (p : Nat) (hp : 1 ≤ p) :
    jsSlice v.filteredUsers (((p : Int) - 1) * usersPerPage)
        (((p : Int) - 1) * usersPerPage + usersPerPage) =
      (v.filteredUsers.drop ((p - 1) * 10)).take 10 := by
  obtain ⟨i, rfl⟩ : ∃ i, p = i + 1 := ⟨p - 1, by omega⟩
  have h := jsSlice_page v.filteredUsers i
  simpa [usersPerPage] using h

theorem flatMap_pages (xs : List JsVal) (n : Nat) :
    (List.range n).flatMap (fun i => (xs.drop (i * 10)).take 10) = xs.take (n * 10) := by
  induction n with
  | zero => simp
  | succ n ih =>
    rw [List.range_succ, List.flatMap_append, ih, List.flatMap_singleton, Nat.succ_mul,
      List.take_add]

/-- C24: for a filtered sequence of length `L > 0` and a page `p` from 1 to the page
count `ceil(L/10)`, the records `usersToShow` of `renderTableView` and of
`renderGridView` on page `p` are the same slice, the records of `filteredUsers` from
index `(p-1)*10` up to `p*10`; the slice has between 1 and 10 records; the slices of
the pages `1 .. ceil(L/10)`, concatenated in page order, are the filtered sequence;
and the numbers `start` and `end` of `updateShowingCount` satisfy `1 ≤ start ≤ end ≤ L`
with `end - start + 1` the length of the slice. -/
theorem page_slices_partition (v : View) (p : Nat) (hne : v.filteredUsers ≠ [])
    (hp1 : 1 ≤ p) (hp2 : p ≤ totalPages v) :
    totalPages v = ⌈(v.filteredUsers.length : ℚ) / 10⌉₊ ∧
    renderTableView { v with currentPage := p } =
      (if ((v.filteredUsers.drop ((p - 1) * 10)).take 10).any cardThrows then none
       else some ((v.filteredUsers.drop ((p - 1) * 10)).take 10)) ∧
    renderGridView { v with currentPage := p } =
      renderTableView { v with currentPage := p } ∧
    1 ≤ ((v.filteredUsers.drop ((p - 1) * 10)).take 10).length ∧
    ((v.filteredUsers.drop ((p - 1) * 10)).take 10).length ≤ 10 ∧
    (List.range (totalPages v)).flatMap
      (fun i => (v.filteredUsers.drop (i * 10)).take 10) = v.filteredUsers ∧
    updateShowingCount { v with currentPage := p } =
      "Showing " ++ toString (showingBounds { v with currentPage := p }).1 ++ "-" ++
        toString (showingBounds { v with currentPage := p }).2 ++
        " of " ++ toString v.filteredUsers.length ++ " users" ∧
    1 ≤ (showingBounds { v with currentPage := p }).1 ∧
    (showingBounds { v with currentPage := p }).1 ≤
      (showingBounds { v with currentPage := p }).2 ∧
    (showingBounds { v with currentPage := p }).2 ≤ v.filteredUsers.length ∧
    (showingBounds { v with currentPage := p }).2 -
        (showingBounds { v with currentPage := p }).1 + 1 =
      ((v.filteredUsers.drop ((p - 1) * 10)).take 10).length := by
  have hL : 0 < v.filteredUsers.length := List.length_pos.mpr hne
  have hT : totalPages v = (v.filteredUsers.length + 9) / 10 := rfl
  have hlen : ((v.filteredUsers.drop ((p - 1) * 10)).take 10).length =
      min 10 (v.filteredUsers.length - (p - 1) * 10) := by
    rw [List.length_take, List.length_drop]
  have hslice := usersToShow_eq v p hp1
  have hb1 : (showingBounds { v with currentPage := p }).1 =
      min (((p : Int) - 1) * 10 + 1) (v.filteredUsers.length : Int) := by
    simp [showingBounds, usersPerPage]
  have hb2 : (showingBounds { v with currentPage := p }).2 =
      min ((p : Int) * 10) (v.filteredUsers.length : Int) := by
    simp [showingBounds, usersPerPage]
  refine ⟨totalPages_eq_ceil v, ?_, ?_, ?_, ?_, ?_, ?_, ?_, ?_, ?_, ?_⟩
  · simp only [renderTableView, hslice]
  · rfl
  · rw [hlen]; omega
  · rw [hlen]; omega
  · rw [flatMap_pages, List.take_of_length_le]
    omega
  · simp only [updateShowingCount]
    rw [if_neg (by omega)]
  · rw [hb1]; omega
  · rw [hb1, hb2]; omega
  · rw [hb2]; omega
  · rw [hb1, hb2, hlen]; omega

/-- Witness of C24: eleven filtered records have two pages; the second page shows the
eleventh record alone, as `Showing 11-11 of 11 users`. -/
theorem page_slices_partition_witness :
    renderTableView { initialView with filteredUsers := elevenUsers, currentPage := (2 : Nat) } =
      some [obj [("userID", num 11)]] ∧
    renderGridView { initialView with filteredUsers := elevenUsers, currentPage := (2 : Nat) } =
      some [obj [("userID", num 11)]] ∧
    (List.range 2).flatMap (fun i => (elevenUsers.drop (i * 10)).take 10) = elevenUsers ∧
    showingBounds { initialView with filteredUsers := elevenUsers, currentPage := (2 : Nat) } =
      (11, 11) := by
  have h := page_slices_partition { initialView with filteredUsers := elevenUsers } 2
    (by decide) (by decide) (by decide)
  exact ⟨h.2.1.trans (by rfl), (h.2.2.1.trans h.2.1).trans (by rfl), h.2.2.2.2.2.1,
    by rfl⟩
end Winx
